import Mathlib

/-!
Verification development for the rickqueue backend core.

This file gives a shallow embedding, in Lean 4, of the parts of the code that
the specification talks about:

* `app/ai/probability_calculator.py` (`ProbabilityCalculator`) — the weighted
  scoring function, embedded over `ℚ` (the Python code computes with IEEE
  floats on decimal literals; every constant in the source is exactly
  representable as a rational, and the claims under study are threshold and
  range properties, so the rational model is the faithful idealisation).
* `app/ai/smart_dispatch.py` (`SmartDispatchService`) — the per-group body of
  the periodic dispatch sweep, embedded as a pure function of the group row
  and of the signals the two analyzers return (the analyzers themselves read
  the database; their outputs are universally quantified here).
* `app/services/queue_service.py` (`QueueService`) — join/leave/dispatch as a
  state machine over explicit lists of rows mirroring the SQLAlchemy tables.
* `app/utils/geo.py` (`calculate_distance`) — over `ℝ`.

Database reads with `ORDER BY`, and Python `list.sort`, are modelled with
`List.insertionSort`; row object identity is modelled with explicit integer
primary keys, as in the schema.
-/

namespace RickQueue

/-- `np.clip(x, lo, hi)`: clamp below by `lo`, then above by `hi`. -/
def clip (x lo hi : ℚ) : ℚ := min (max x lo) hi

namespace ProbabilityCalculator

/-- `_normalize_historical`: `np.clip(historical_prob, 0, 100)`. -/
def normalize_historical (historical_prob : ℚ) : ℚ :=
  clip historical_prob 0 100

/-- `_calculate_proximity_score`: 0 when no pending booking, else a count
component `min(pending_count*20, 50)` plus a distance tier 50/30/10/0. -/
def calculate_proximity_score (pending_count : ℤ) (nearest_distance : ℤ) : ℚ :=
  if pending_count = 0 then 0
  else
    let count_score : ℤ := min (pending_count * 20) 50
    let distance_score : ℤ :=
      if nearest_distance < 200 then 50
      else if nearest_distance < 500 then 30
      else if nearest_distance < 1000 then 10
      else 0
    ((count_score + distance_score : ℤ) : ℚ)

/-- `_calculate_wait_time_score`: step function of `wait_time_seconds / 60`
(Python true division). -/
def calculate_wait_time_score (wait_time_seconds : ℤ) : ℚ :=
  let wait_minutes : ℚ := (wait_time_seconds : ℚ) / 60
  if wait_minutes < 1 then 80
  else if wait_minutes < 3 then 60
  else if wait_minutes < 5 then 40
  else if wait_minutes < 10 then 20
  else 5

/-- `_calculate_group_size_score`: step function of
`fill_ratio = current_size / max_size`. -/
def calculate_group_size_score (current_size max_size : ℤ) : ℚ :=
  let fill_ratio : ℚ := (current_size : ℚ) / (max_size : ℚ)
  if fill_ratio ≥ 3/4 then 90
  else if fill_ratio ≥ 1/2 then 60
  else if fill_ratio ≥ 1/4 then 30
  else 10

/-- `round(x, 2)`, rounding to two decimal places. (CPython rounds ties on the
underlying binary floats to even; ties play no role in any claim here.) -/
def roundTo2 (x : ℚ) : ℚ := ((round (x * 100) : ℤ) : ℚ) / 100

/-- `calculate_final_probability`: the weighted combination
`0.40/0.35/0.15/0.10`, clipped to `[0,100]`, rounded to 2 decimals.
The source gives `max_size` the default value 4; callers that rely on the
default pass `4` explicitly here. -/
def calculate_final_probability (historical_prob : ℚ)
    (pending_count nearest_distance wait_time current_size max_size : ℤ) : ℚ :=
  let historical_score := normalize_historical historical_prob
  let proximity_score := calculate_proximity_score pending_count nearest_distance
  let wait_time_score := calculate_wait_time_score wait_time
  let group_size_score := calculate_group_size_score current_size max_size
  let final_probability :=
    historical_score * (40/100) + proximity_score * (35/100) +
    wait_time_score * (15/100) + group_size_score * (10/100)
  roundTo2 (clip final_probability 0 100)

end ProbabilityCalculator

/-- `GroupStatus` enum from `app/models/ride_group.py`. -/
inductive GroupStatus
  | FORMING
  | READY
  | DISPATCHED
  | COMPLETED
  | CANCELLED
deriving DecidableEq

/-- `DispatchDecisionType` enum from `app/models/ride_group.py`. The value
`FORCED` is declared by the model but, as proved below, never written by the
dispatch engine. -/
inductive DispatchDecisionType
  | FULL_GROUP
  | EARLY_DISPATCH
  | FORCED
deriving DecidableEq

/-- A `ride_groups` row. Timestamps are modelled with the logical clock of the
state machine below; `dispatched_at` and `qr_code`, which no claim inspects,
are elided. Sizes are `ℤ` as in the schema (`Integer` columns). -/
structure RideGroup where
  id : ℕ
  routeId : ℕ
  groupStatus : GroupStatus
  currentSize : ℤ
  maxSize : ℤ
  womenOnly : Bool
  firstUserJoinedAt : Option ℕ
  dispatchDecisionType : Option DispatchDecisionType
  dispatchProbabilityScore : Option ℚ
deriving DecidableEq

/-- `RideGroup.is_full`: `current_size >= max_size`. -/
def RideGroup.is_full (g : RideGroup) : Bool := decide (g.maxSize ≤ g.currentSize)

/-- A `users` row (fields the core logic reads). -/
structure User where
  id : ℕ
  gender : String
deriving DecidableEq

/-- `RideGroup.can_accept_user`: reject when full, reject non-female users for
women-only groups, else accept. -/
def RideGroup.can_accept_user (g : RideGroup) (user : User) : Bool :=
  if g.is_full then false
  else if g.womenOnly && user.gender != "FEMALE" then false
  else true

/-- The value type of the heterogeneous Python dict returned by
`ProximityAnalyzer.analyze_pending_bookings`. -/
inductive PyVal
  | int (z : ℤ)
  | bool (b : Bool)
  | str (s : String)
deriving DecidableEq

/-- The dict returned by `ProximityAnalyzer.analyze_pending_bookings`: its keys
are exactly `pending_count`, `nearest_distance_meters`, `strategic_advantage`
and `reasoning`. -/
structure ProximityAnalysis where
  pendingCount : ℤ
  nearestDistanceMeters : ℤ
  strategicAdvantage : Bool
  reasoning : String
deriving DecidableEq

/-- Python `dict.get` on the proximity dict: `some` for the four keys the
analyzer actually puts in the dict, `none` for every other key. -/
def ProximityAnalysis.get (pa : ProximityAnalysis) (key : String) : Option PyVal :=
  if key = "pending_count" then some (.int pa.pendingCount)
  else if key = "nearest_distance_meters" then some (.int pa.nearestDistanceMeters)
  else if key = "strategic_advantage" then some (.bool pa.strategicAdvantage)
  else if key = "reasoning" then some (.str pa.reasoning)
  else none

namespace SmartDispatchService

/-- `PROBABILITY_THRESHOLD_LOW`. -/
def PROBABILITY_THRESHOLD_LOW : ℚ := 20

/-- `PROBABILITY_THRESHOLD_HIGH`. -/
def PROBABILITY_THRESHOLD_HIGH : ℚ := 80

/-- `MIN_WAIT_TIME_SECONDS`. -/
def MIN_WAIT_TIME_SECONDS : ℤ := 180

/-- `MAX_WAIT_TIME_SECONDS`. -/
def MAX_WAIT_TIME_SECONDS : ℤ := 600

/-- The `{action, reasoning}` dict produced by `_make_decision`. -/
structure Decision where
  action : String
  reasoning : String
deriving DecidableEq

/-- `_make_decision`: the four ordered rules, then the default WAIT. The
numeric interpolations inside the reasoning strings are elided; no claim
inspects the text. -/
def make_decision (final_probability : ℚ) (wait_time : ℤ)
    (proximity_analysis : ProximityAnalysis) : Decision :=
  if proximity_analysis.pendingCount ≥ 2 ∧
      proximity_analysis.nearestDistanceMeters < 500 ∧
      wait_time > MIN_WAIT_TIME_SECONDS then
    { action := "DISPATCH_NOW"
      reasoning := "STRATEGIC: users waiting nearby - dispatch to secure them!" }
  else if final_probability < PROBABILITY_THRESHOLD_LOW ∧
      wait_time > MIN_WAIT_TIME_SECONDS then
    { action := "DISPATCH_NOW"
      reasoning := "Low arrival probability + wait time" }
  else if final_probability > PROBABILITY_THRESHOLD_HIGH then
    { action := "WAIT", reasoning := "High arrival probability" }
  else if wait_time > MAX_WAIT_TIME_SECONDS then
    { action := "DISPATCH_NOW", reasoning := "Maximum wait time exceeded" }
  else
    { action := "WAIT", reasoning := "Uncertain probability, continuing to wait" }

/-- A `dispatch_decisions_log` row as built by `_log_decision`. -/
structure DispatchDecisionLog where
  groupId : ℕ
  groupSizeAtDecision : ℤ
  waitTimeSeconds : ℤ
  pendingBookingsCount : ℤ
  nearestPendingDistanceMeters : ℤ
  historicalProbability : Option PyVal
  finalProbabilityScore : ℚ
  decisionMade : String
  reasoning : String
deriving DecidableEq

/-- `_log_decision`: the audit row. The `historical_probability` column is
filled from `proximity_analysis.get("historical_prob")` — a key the proximity
dict does not contain. -/
def log_decision (group : RideGroup) (decision : Decision) (probability : ℚ)
    (wait_time : ℤ) (proximity_analysis : ProximityAnalysis) : DispatchDecisionLog :=
  { groupId := group.id
    groupSizeAtDecision := group.currentSize
    waitTimeSeconds := wait_time
    pendingBookingsCount := proximity_analysis.pendingCount
    nearestPendingDistanceMeters := proximity_analysis.nearestDistanceMeters
    historicalProbability := proximity_analysis.get "historical_prob"
    finalProbabilityScore := probability
    decisionMade := decision.action
    reasoning := decision.reasoning }

/-- The group-row mutation of `_dispatch_group`: status READY, decision type,
probability score (timestamp and QR code elided). -/
def dispatch_group_record (group : RideGroup)
    (decision_type : DispatchDecisionType) (probability : ℚ) : RideGroup :=
  { group with
      groupStatus := .READY
      dispatchDecisionType := some decision_type
      dispatchProbabilityScore := some probability }

/-- Result of one `_analyze_and_decide` evaluation: the returned stats label,
the group row afterwards, and the `DispatchDecisionLog` rows appended. -/
structure EvalOutcome where
  result : String
  group : RideGroup
  logs : List DispatchDecisionLog
deriving DecidableEq

/-- The final probability that `_analyze_and_decide` computes for a non-full,
old-enough group: note the call passes `current_size` but not `max_size`, so
the calculator uses its default `max_size = 4`. -/
def sweep_final_probability (group : RideGroup) (wait_time_seconds : ℤ)
    (historical_prob : ℚ) (proximity_analysis : ProximityAnalysis) : ℚ :=
  ProbabilityCalculator.calculate_final_probability historical_prob
    proximity_analysis.pendingCount proximity_analysis.nearestDistanceMeters
    wait_time_seconds group.currentSize 4

/-- `_analyze_and_decide`, the per-group body of the sweep
(`run_dispatch_analysis` applies it to every group whose status is FORMING).
`wait_time_seconds` stands for `group.get_wait_time_seconds()` at evaluation
time; `historical_prob` and `proximity_analysis` stand for the values returned
by `HistoricalLearner.get_arrival_probability` and
`ProximityAnalyzer.analyze_pending_bookings`. -/
def analyze_and_decide (group : RideGroup) (wait_time_seconds : ℤ)
    (historical_prob : ℚ) (proximity_analysis : ProximityAnalysis) : EvalOutcome :=
  if group.is_full then
    { result := "dispatched"
      group := dispatch_group_record group .FULL_GROUP 100
      logs := [] }
  else if wait_time_seconds < 60 then
    { result := "skipped", group := group, logs := [] }
  else
    let final_probability :=
      sweep_final_probability group wait_time_seconds historical_prob proximity_analysis
    let decision := make_decision final_probability wait_time_seconds proximity_analysis
    let log := log_decision group decision final_probability wait_time_seconds proximity_analysis
    if decision.action = "DISPATCH_NOW" then
      { result := "dispatched"
        group := dispatch_group_record group .EARLY_DISPATCH final_probability
        logs := [log] }
    else
      { result := "waiting", group := group, logs := [log] }

end SmartDispatchService

/-- `request_status` enum of `booking_requests`. -/
inductive RequestStatus
  | SEARCHING
  | GROUPED
  | CANCELLED
deriving DecidableEq

/-- A `booking_requests` row. -/
structure BookingRequest where
  id : ℕ
  userId : ℕ
  routeId : ℕ
  status : RequestStatus
  requestLat : ℚ
  requestLng : ℚ
  womenOnlyPreference : Bool
  groupId : Option ℕ
  groupedAt : Option ℕ
deriving DecidableEq

/-- A `group_members` row. `joined_at` is the logical clock value at insertion
(the server timestamps are strictly increasing across commits). -/
structure GroupMember where
  id : ℕ
  groupId : ℕ
  userId : ℕ
  joinedAt : ℕ
  userLat : ℚ
  userLng : ℚ
  seatNumber : ℤ
deriving DecidableEq

/-- A `routes` row (fields the queue logic reads). -/
structure Route where
  id : ℕ
  isActive : Bool
deriving DecidableEq

/-- The database state the queue service and the dispatch engine mutate.
`next*Id` model the autoincrement primary keys; `clock` the server time. -/
structure DBState where
  users : List User
  routes : List Route
  bookings : List BookingRequest
  groups : List RideGroup
  members : List GroupMember
  nextBookingId : ℕ
  nextGroupId : ℕ
  nextMemberId : ℕ
  clock : ℕ
deriving DecidableEq

/-- The rows of `group_members` with the given `group_id`, in table order
(which the state machine keeps ordered by `joined_at`). -/
def membersOf (members : List GroupMember) (gid : ℕ) : List GroupMember :=
  members.filter (fun m => m.groupId == gid)

/-- The seat sequence `1, 2, ..., n`. -/
def seatSeq (n : ℕ) : List ℤ := (List.range n).map (fun (i : ℕ) => (i : ℤ) + 1)

/-- Descending order on `current_size`: the `sort(key=current_size,
reverse=True)` order used by `_find_or_create_group`. -/
def bySizeDesc (a b : RideGroup) : Prop := b.currentSize ≤ a.currentSize

instance : DecidableRel bySizeDesc := fun a b =>
  inferInstanceAs (Decidable (b.currentSize ≤ a.currentSize))

instance : IsTotal RideGroup bySizeDesc := ⟨fun a b => le_total b.currentSize a.currentSize⟩

instance : IsTrans RideGroup bySizeDesc := ⟨fun _ _ _ h1 h2 => le_trans h2 h1⟩

/-- Ascending order on `joined_at`: the `ORDER BY joined_at` used by
`_reassign_seat_numbers`. -/
def byJoinedAt (a b : GroupMember) : Prop := a.joinedAt ≤ b.joinedAt

instance : DecidableRel byJoinedAt := fun a b =>
  inferInstanceAs (Decidable (a.joinedAt ≤ b.joinedAt))

instance : IsTotal GroupMember byJoinedAt := ⟨fun a b => le_total a.joinedAt b.joinedAt⟩

instance : IsTrans GroupMember byJoinedAt := ⟨fun _ _ _ h1 h2 => le_trans h1 h2⟩

namespace QueueService

/-- The result dict of `join_queue` (route details and the AI wait estimate,
which no claim inspects, are elided). -/
structure JoinResult where
  bookingId : ℕ
  groupId : ℕ
  groupStatus : GroupStatus
  currentSize : ℤ
  maxSize : ℤ
  seatNumber : ℤ
  womenOnly : Bool
deriving DecidableEq

/-- The candidate query of `_find_or_create_group`: FORMING groups on the
route with `current_size < max_size`, restricted to women-only groups when
`women_only or user.gender == "FEMALE"`, otherwise to mixed groups. -/
def candidate_groups (groups : List RideGroup) (user : User) (routeId : ℕ)
    (women_only : Bool) : List RideGroup :=
  let base := groups.filter (fun g =>
    g.routeId == routeId && g.groupStatus == GroupStatus.FORMING &&
      decide (g.currentSize < g.maxSize))
  if women_only || user.gender == "FEMALE" then
    base.filter (fun g => g.womenOnly)
  else
    base.filter (fun g => !g.womenOnly)

/-- `_find_or_create_group`: sort the candidates by size descending, take the
first that `can_accept_user` the requester; otherwise create a fresh empty
group (`women_only = women_only or user.gender == "FEMALE"`, `max_size = 4`). -/
def find_or_create_group (st : DBState) (user : User) (routeId : ℕ)
    (women_only : Bool) : DBState × RideGroup :=
  match (List.insertionSort bySizeDesc
      (candidate_groups st.groups user routeId women_only)).find?
      (fun g => g.can_accept_user user) with
  | some g => (st, g)
  | none =>
    let new_group : RideGroup :=
      { id := st.nextGroupId
        routeId := routeId
        groupStatus := .FORMING
        currentSize := 0
        maxSize := 4
        womenOnly := women_only || user.gender == "FEMALE"
        firstUserJoinedAt := none
        dispatchDecisionType := none
        dispatchProbabilityScore := none }
    ({ st with groups := st.groups ++ [new_group], nextGroupId := st.nextGroupId + 1 },
      new_group)

/-- `_add_user_to_group`: append the member with seat `current_size + 1`, bump
the group size, stamp `first_user_joined_at` on the first member, and mark the
booking GROUPED. -/
def add_user_to_group (st : DBState) (user : User) (group : RideGroup)
    (bookingId : ℕ) (user_lat user_lng : ℚ) : DBState × JoinResult :=
  let seat_number := group.currentSize + 1
  let member : GroupMember :=
    { id := st.nextMemberId
      groupId := group.id
      userId := user.id
      joinedAt := st.clock
      userLat := user_lat
      userLng := user_lng
      seatNumber := seat_number }
  let group2 : RideGroup :=
    { group with
        currentSize := group.currentSize + 1
        firstUserJoinedAt :=
          match group.firstUserJoinedAt with
          | none => some st.clock
          | some t => some t }
  let st2 : DBState :=
    { st with
        members := st.members ++ [member]
        groups := st.groups.map (fun g => if g.id == group.id then group2 else g)
        bookings := st.bookings.map (fun b =>
          if b.id == bookingId then
            { b with groupId := some group.id, status := .GROUPED, groupedAt := some st.clock }
          else b)
        nextMemberId := st.nextMemberId + 1
        clock := st.clock + 1 }
  (st2,
    { bookingId := bookingId
      groupId := group.id
      groupStatus := group2.groupStatus
      currentSize := group2.currentSize
      maxSize := group2.maxSize
      seatNumber := seat_number
      womenOnly := group2.womenOnly })

/-- `join_queue`: validate user, route and the duplicate-booking rule, create
the SEARCHING booking, then find or create a group and add the user to it.
Note the duplicate check matches the source exactly: it looks only for a
booking with status SEARCHING. -/
def join_queue (st : DBState) (userId routeId : ℕ) (user_lat user_lng : ℚ)
    (women_only : Bool) : Except String (DBState × JoinResult) :=
  match st.users.find? (fun u => u.id == userId) with
  | none => .error "User not found"
  | some user =>
    match st.routes.find? (fun r => r.id == routeId) with
    | none => .error "Route not found or inactive"
    | some route =>
      if !route.isActive then .error "Route not found or inactive"
      else if st.bookings.any (fun b =>
          b.userId == userId && b.status == RequestStatus.SEARCHING) then
        .error "You are already in a queue. Please cancel first."
      else
        let booking : BookingRequest :=
          { id := st.nextBookingId
            userId := userId
            routeId := routeId
            status := .SEARCHING
            requestLat := user_lat
            requestLng := user_lng
            womenOnlyPreference := women_only
            groupId := none
            groupedAt := none }
        let st1 : DBState :=
          { st with
              bookings := st.bookings ++ [booking]
              nextBookingId := st.nextBookingId + 1 }
        let found := find_or_create_group st1 user routeId women_only
        .ok (add_user_to_group found.1 user found.2 booking.id user_lat user_lng)

/-- The seat write-back of `_reassign_seat_numbers`: a member row receives
`1 + its position` in the `joined_at`-ordered member list of the group
(`enumerate(..., start=1)`); rows not in that list are untouched. -/
def assign_seat (sorted : List GroupMember) (m : GroupMember) : GroupMember :=
  match List.findIdx? (fun x => x.id == m.id) sorted with
  | some idx => { m with seatNumber := (idx : ℤ) + 1 }
  | none => m

/-- `_reassign_seat_numbers`: read the members of the group ordered by
`joined_at` and write back seats `1..n` in that order (`enumerate(..., 1)`);
the write-back is keyed by the member row (its primary key). -/
def reassign_seat_numbers (members : List GroupMember) (gid : ℕ) : List GroupMember :=
  let sorted := List.insertionSort byJoinedAt (membersOf members gid)
  members.map (assign_seat sorted)

/-- The group-mutation step of `leave_queue`: when the booking is bound to a
FORMING group, delete the member row, decrement the size, delete the group
when it empties, otherwise renumber seats. -/
def leave_group_step (st : DBState) (userId : ℕ) (booking : BookingRequest) : DBState :=
  match booking.groupId with
  | none => st
  | some gid =>
    match st.groups.find? (fun g => g.id == gid) with
    | none => st
    | some g =>
      if g.groupStatus == GroupStatus.FORMING then
        match st.members.find? (fun m => m.groupId == gid && m.userId == userId) with
        | none => st
        | some m =>
          let members1 := st.members.eraseP (fun m2 => m2.id == m.id)
          let newSize := g.currentSize - 1
          if newSize = 0 then
            { st with
                members := members1
                groups := st.groups.filter (fun g2 => !(g2.id == gid)) }
          else
            { st with
                members := reassign_seat_numbers members1 gid
                groups := st.groups.map (fun g2 =>
                  if g2.id == gid then { g2 with currentSize := newSize } else g2) }
      else st

/-- `leave_queue`: find the active (SEARCHING or GROUPED) booking; if it is
bound to a FORMING group, delete the member row, decrement the size, delete
the group when it empties, otherwise renumber seats; finally mark the booking
CANCELLED (its `group_id` is not cleared). -/
def leave_queue (st : DBState) (userId : ℕ) : Except String DBState :=
  match st.bookings.find? (fun b =>
      b.userId == userId &&
        (b.status == RequestStatus.SEARCHING || b.status == RequestStatus.GROUPED)) with
  | none => .error "No active booking found"
  | some booking =>
    let st1 : DBState := leave_group_step st userId booking
    .ok { st1 with
            bookings := st1.bookings.map (fun b =>
              if b.id == booking.id then { b with status := .CANCELLED } else b) }

end QueueService

namespace SmartDispatchService

/-- The per-booking bulk update of `_dispatch_group`:
`filter(group_id == id).update(status=GROUPED, grouped_at=now)`. -/
def dispatch_update_booking (gid : ℕ) (now : ℕ) (b : BookingRequest) : BookingRequest :=
  if b.groupId == some gid then { b with status := .GROUPED, groupedAt := some now } else b

/-- `_dispatch_group` at state level: mutate the group row to READY and bulk
re-mark every booking whose `group_id` is the dispatched group. -/
def dispatch_group (st : DBState) (gid : ℕ)
    (decision_type : DispatchDecisionType) (probability : ℚ) : DBState :=
  { st with
      groups := st.groups.map (fun g =>
        if g.id == gid then dispatch_group_record g decision_type probability else g)
      bookings := st.bookings.map (dispatch_update_booking gid st.clock) }

end SmartDispatchService

/-- One external operation against the queue service. -/
inductive QueueOp
  | join (userId routeId : ℕ) (lat lng : ℚ) (womenOnly : Bool)
  | leave (userId : ℕ)

/-- Apply one operation; a raised `ValueError` rolls back nothing because both
entry points validate before mutating, so an error leaves the state as is. -/
def applyOp (st : DBState) : QueueOp → DBState
  | .join u r lat lng w =>
    match QueueService.join_queue st u r lat lng w with
    | .ok (st2, _) => st2
    | .error _ => st
  | .leave u =>
    match QueueService.leave_queue st u with
    | .ok st2 => st2
    | .error _ => st

/-- Run a sequence of operations. -/
def runOps (st : DBState) (ops : List QueueOp) : DBState := ops.foldl applyOp st

/-- The initial state: the user and route tables seeded, everything else
empty. -/
def initState (users : List User) (routes : List Route) : DBState :=
  { users := users
    routes := routes
    bookings := []
    groups := []
    members := []
    nextBookingId := 0
    nextGroupId := 0
    nextMemberId := 0
    clock := 0 }

/-! ### Concrete fixtures used by witnesses and counterexamples -/

/-- A half-full mixed FORMING group (2 of 4 seats taken). -/
def group_2of4 : RideGroup :=
  { id := 8
    routeId := 1
    groupStatus := .FORMING
    currentSize := 2
    maxSize := 4
    womenOnly := false
    firstUserJoinedAt := some 0
    dispatchDecisionType := none
    dispatchProbabilityScore := none }

/-- A full FORMING group (4 of 4 seats taken). -/
def group_full4 : RideGroup :=
  { group_2of4 with id := 7, currentSize := 4 }

/-- A FORMING group whose capacity is not the calculator default 4. -/
def group_2of5 : RideGroup :=
  { group_2of4 with id := 9, maxSize := 5 }

/-- The proximity dict when no pending booking exists: count 0, sentinel
distance 9999. -/
def pa_none : ProximityAnalysis :=
  { pendingCount := 0
    nearestDistanceMeters := 9999
    strategicAdvantage := false
    reasoning := "No pending bookings detected" }









/-! ### The queue-state invariant -/

/-! ### `app/utils/geo.py` -/

namespace Geo

/-- `math.radians`. -/
noncomputable def radians (deg : ℝ) : ℝ := deg * Real.pi / 180

/-- `math.atan2 y x`, i.e. the argument of the complex number `x + i*y`. -/
noncomputable def atan2 (y x : ℝ) : ℝ := Complex.arg { re := x, im := y }

/-- Python `int(...)` on a float: truncation toward zero. -/
noncomputable def int_trunc (r : ℝ) : ℤ :=
  haveI := Classical.propDecidable (r < 0)
  if r < 0 then -⌊-r⌋ else ⌊r⌋

/-- `calculate_distance` from `app/utils/geo.py`, over `ℝ`: the Haversine
formula with Earth radius 6 371 000 m, truncated to integer meters. The
source performs no coordinate validation and has no error branch, which the
total `.ok` result makes explicit; the claims compare it against the spec
function below. (IEEE-float NaN has no counterpart in `ℝ`; over the reals
every run reaches the final `return`.) -/
noncomputable def calculate_distance (lat1 lng1 lat2 lng2 : ℝ) : Except String ℤ :=
  let EARTH_RADIUS : ℝ := 6371000
  let lat1_rad := radians lat1
  let lat2_rad := radians lat2
  let delta_lat := radians (lat2 - lat1)
  let delta_lng := radians (lng2 - lng1)
  let a := Real.sin (delta_lat / 2) ^ 2 +
    Real.cos lat1_rad * Real.cos lat2_rad * Real.sin (delta_lng / 2) ^ 2
  let c := 2 * atan2 (Real.sqrt a) (Real.sqrt (1 - a))
  let distance := EARTH_RADIUS * c
  .ok (int_trunc distance)

/-- The Haversine great-circle distance in meters with Earth radius
6 371 000 m, as §4.1 of the spec describes it. -/
noncomputable def haversine_meters (lat1 lng1 lat2 lng2 : ℝ) : ℝ :=
  let lat1_rad := radians lat1
  let lat2_rad := radians lat2
  let delta_lat := radians (lat2 - lat1)
  let delta_lng := radians (lng2 - lng1)
  let a := Real.sin (delta_lat / 2) ^ 2 +
    Real.cos lat1_rad * Real.cos lat2_rad * Real.sin (delta_lng / 2) ^ 2
  6371000 * (2 * atan2 (Real.sqrt a) (Real.sqrt (1 - a)))

/-- In-range latitudes and longitudes (the spec's "out-of-range" validity
notion for a coordinate pair of pairs). -/
def valid_coords (lat1 lng1 lat2 lng2 : ℝ) : Prop :=
  |lat1| ≤ 90 ∧ |lat2| ≤ 90 ∧ |lng1| ≤ 180 ∧ |lng2| ≤ 180

/-- The distance function as §4.1 of the spec words it: invalid (out-of-range)
coordinates must fail with a validation error; valid ones yield the Haversine
distance in integer meters. -/
noncomputable def calculate_distance_spec (lat1 lng1 lat2 lng2 : ℝ) :
    Except String ℤ :=
  haveI := Classical.propDecidable (valid_coords lat1 lng1 lat2 lng2)
  if valid_coords lat1 lng1 lat2 lng2 then
    .ok (int_trunc (haversine_meters lat1 lng1 lat2 lng2))
  else
    .error "invalid coordinates"

end Geo

/-! ### Concrete queue scenarios -/

/-- Two male users. -/
def q_users : List User := [{ id := 1, gender := "MALE" }, { id := 2, gender := "MALE" }]

/-- One active route. -/
def q_routes : List Route := [{ id := 1, isActive := true }]

/-- Seeded initial state. -/
def q_init : DBState := initState q_users q_routes

/-- State after user 1 joined once (booking 0 GROUPED in group 0). -/
def q_st1 : DBState := applyOp q_init (.join 1 1 0 0 false)

/-- State after user 1 joined, user 2 joined the same group, and user 1 left:
booking 0 is CANCELLED but still references group 0. -/
def q_st3 : DBState :=
  runOps q_init [.join 1 1 0 0 false, .join 2 1 0 0 false, .leave 1]

/-- Booking 0 as it stands in `q_st3`: CANCELLED by `leave_queue`, its
`group_id` not cleared. -/
def q_booking0 : BookingRequest :=
  { id := 0
    userId := 1
    routeId := 1
    status := .CANCELLED
    requestLat := 0
    requestLng := 0
    womenOnlyPreference := false
    groupId := some 0
    groupedAt := some 0 }

/-- Group 0 as it stands after the scenario behind `q_st3`: user 2 remains
alone in it. -/
def q_group0 : RideGroup :=
  { id := 0
    routeId := 1
    groupStatus := .FORMING
    currentSize := 1
    maxSize := 4
    womenOnly := false
    firstUserJoinedAt := some 0
    dispatchDecisionType := none
    dispatchProbabilityScore := none }

/-- User 2 of the fixture user table. -/
def q_user2 : User := { id := 2, gender := "MALE" }

/-- The fixture route row. -/
def q_route1 : Route := { id := 1, isActive := true }

namespace QueueService

/-- The state invariant maintained by `join_queue` and `leave_queue`:
member rows are in strictly increasing `joined_at` order and timestamped
before the clock; primary keys are unique and below their counters; and every
group's `current_size` equals its member count, is bounded by `max_size`, and
its members carry seats `1..current_size` in join order. -/
structure Inv (st : DBState) : Prop where
  members_sorted : st.members.Pairwise (fun a b => a.joinedAt < b.joinedAt)
  members_clock : ∀ m ∈ st.members, m.joinedAt < st.clock
  member_ids_nodup : (st.members.map (fun m => m.id)).Nodup
  member_ids_lt : ∀ m ∈ st.members, m.id < st.nextMemberId
  member_gids_lt : ∀ m ∈ st.members, m.groupId < st.nextGroupId
  group_ids_nodup : (st.groups.map (fun g => g.id)).Nodup
  group_ids_lt : ∀ g ∈ st.groups, g.id < st.nextGroupId
  size_eq : ∀ g ∈ st.groups,
    g.currentSize = ((membersOf st.members g.id).length : ℤ)
  size_le : ∀ g ∈ st.groups, g.currentSize ≤ g.maxSize
  seats_eq : ∀ g ∈ st.groups,
    (membersOf st.members g.id).map (fun m => m.seatNumber) =
      seatSeq (membersOf st.members g.id).length

end QueueService

/-! ## Theorems -/

namespace ProbabilityCalculator

theorem clip_nonneg (x : ℚ) : 0 ≤ clip x 0 100 :=
  le_min (le_max_right x 0) (by norm_num)

theorem clip_le (x : ℚ) : clip x 0 100 ≤ 100 := min_le_right _ _

theorem roundTo2_nonneg {x : ℚ} (hx : 0 ≤ x) : 0 ≤ roundTo2 x := by
  unfold roundTo2
  have h0 : (0:ℤ) ≤ round (x * 100) := by
    rw [round_eq]
    positivity
  have : ((0:ℤ):ℚ) ≤ ((round (x * 100) : ℤ) : ℚ) := by exact_mod_cast h0
  simpa using div_nonneg (by exact_mod_cast h0) (by norm_num : (0:ℚ) ≤ 100)

theorem roundTo2_le {x : ℚ} (hx : x ≤ 100) : roundTo2 x ≤ 100 := by
  unfold roundTo2
  have h1 : |x * 100 - (round (x * 100) : ℚ)| ≤ 1/2 := abs_sub_round (x * 100)
  have h2 : (round (x * 100) : ℚ) ≤ x * 100 + 1/2 := by
    have := abs_le.mp h1
    linarith [this.1]
  have h3 : (round (x * 100) : ℚ) < 10001 := by linarith
  have h4 : round (x * 100) < (10001:ℤ) := by exact_mod_cast h3
  have h5 : round (x * 100) ≤ (10000:ℤ) := by omega
  have h6 : ((round (x * 100) : ℤ) : ℚ) ≤ 10000 := by exact_mod_cast h5
  linarith

end ProbabilityCalculator

/-! ### List bookkeeping lemmas for the queue-state invariant -/

section ListLemmas

variable {α : Type}

/-- When every element matching `p` also matches `q`, deleting the first
`p`-match commutes with filtering by `q`. -/
theorem filter_eraseP_comm (p q : α → Bool) :
    ∀ l : List α, (∀ x ∈ l, p x = true → q x = true) →
      (l.eraseP p).filter q = (l.filter q).eraseP p := by
  intro l
  induction l with
  | nil => intro _; rfl
  | cons a t ih =>
    intro hpq
    by_cases hpa : p a = true
    · have hqa : q a = true := hpq a (List.mem_cons_self a t) hpa
      rw [List.eraseP_cons_of_pos hpa, List.filter_cons_of_pos hqa,
        List.eraseP_cons_of_pos hpa]
    · have hpa2 : p a = false := by
        cases hp : p a
        · rfl
        · exact absurd hp hpa
      rw [List.eraseP_cons_of_neg (by simp [hpa2])]
      by_cases hqa : q a = true
      · rw [List.filter_cons_of_pos hqa, List.filter_cons_of_pos hqa,
          List.eraseP_cons_of_neg (by simp [hpa2])]
        rw [ih (fun x hx => hpq x (List.mem_cons_of_mem a hx))]
      · have hqa2 : q a = false := by
          cases hq : q a
          · rfl
          · exact absurd hq hqa
        rw [List.filter_cons_of_neg (by simp [hqa2]),
          List.filter_cons_of_neg (by simp [hqa2])]
        exact ih (fun x hx => hpq x (List.mem_cons_of_mem a hx))

/-- When every element matching `p` fails `q`, deleting the first `p`-match
does not change the `q`-filtered list. -/
theorem filter_eraseP_disjoint (p q : α → Bool) :
    ∀ l : List α, (∀ x ∈ l, p x = true → q x = false) →
      (l.eraseP p).filter q = l.filter q := by
  intro l
  induction l with
  | nil => intro _; rfl
  | cons a t ih =>
    intro hpq
    by_cases hpa : p a = true
    · have hqa : q a = false := hpq a (List.mem_cons_self a t) hpa
      rw [List.eraseP_cons_of_pos hpa, List.filter_cons_of_neg (by simp [hqa])]
    · have hpa2 : p a = false := by
        cases hp : p a
        · rfl
        · exact absurd hp hpa
      rw [List.eraseP_cons_of_neg (by simp [hpa2])]
      by_cases hqa : q a = true
      · rw [List.filter_cons_of_pos hqa, List.filter_cons_of_pos hqa,
          ih (fun x hx => hpq x (List.mem_cons_of_mem a hx))]
      · have hqa2 : q a = false := by
          cases hq : q a
          · rfl
          · exact absurd hq hqa
        rw [List.filter_cons_of_neg (by simp [hqa2]),
          List.filter_cons_of_neg (by simp [hqa2]),
          ih (fun x hx => hpq x (List.mem_cons_of_mem a hx))]

/-- Filtering commutes with a map that does not affect the filter predicate. -/
theorem filter_map_pres (f : α → α) (q : α → Bool) (hq : ∀ x, q (f x) = q x) :
    ∀ l : List α, (l.map f).filter q = (l.filter q).map f := by
  intro l
  induction l with
  | nil => rfl
  | cons a t ih =>
    by_cases hqa : q a = true
    · rw [List.map_cons, List.filter_cons_of_pos (by rw [hq]; exact hqa),
        List.filter_cons_of_pos hqa, List.map_cons, ih]
    · have hqa2 : q a = false := by
        cases hqq : q a
        · rfl
        · exact absurd hqq hqa
      rw [List.map_cons, List.filter_cons_of_neg (by simp [hq, hqa2]),
        List.filter_cons_of_neg (by simp [hqa2]), ih]

end ListLemmas

/-! ### Facts about `membersOf`, `seatSeq` and the seat write-back -/

theorem membersOf_append_same (ms : List GroupMember) (m : GroupMember) (gid : ℕ)
    (h : m.groupId = gid) :
    membersOf (ms ++ [m]) gid = membersOf ms gid ++ [m] := by
  unfold membersOf
  rw [List.filter_append]
  simp [h]

theorem membersOf_append_other (ms : List GroupMember) (m : GroupMember) (gid : ℕ)
    (h : ¬ m.groupId = gid) :
    membersOf (ms ++ [m]) gid = membersOf ms gid := by
  unfold membersOf
  rw [List.filter_append]
  simp [h]

theorem seatSeq_succ (n : ℕ) : seatSeq (n + 1) = seatSeq n ++ [(n : ℤ) + 1] := by
  unfold seatSeq
  rw [List.range_succ, List.map_append]
  rfl

theorem seatSeq_length (n : ℕ) : (seatSeq n).length = n := by
  unfold seatSeq
  rw [List.length_map, List.length_range]

theorem seatSeq_getElem (n i : ℕ) (hi : i < n) (h2 : i < (seatSeq n).length) :
    (seatSeq n)[i] = (i : ℤ) + 1 := by
  unfold seatSeq
  simp

namespace QueueService

theorem assign_seat_groupId (s : List GroupMember) (m : GroupMember) :
    (assign_seat s m).groupId = m.groupId := by
  unfold assign_seat
  cases h : List.findIdx? (fun x => x.id == m.id) s <;> simp

theorem assign_seat_id (s : List GroupMember) (m : GroupMember) :
    (assign_seat s m).id = m.id := by
  unfold assign_seat
  cases h : List.findIdx? (fun x => x.id == m.id) s <;> simp

theorem assign_seat_joinedAt (s : List GroupMember) (m : GroupMember) :
    (assign_seat s m).joinedAt = m.joinedAt := by
  unfold assign_seat
  cases h : List.findIdx? (fun x => x.id == m.id) s <;> simp

/-- A member whose primary key does not occur in the ordered list is left
untouched by the write-back. -/
theorem assign_seat_of_not_mem (s : List GroupMember) (m : GroupMember)
    (h : m.id ∉ s.map (fun x => x.id)) : assign_seat s m = m := by
  unfold assign_seat
  have hnone : List.findIdx? (fun x => x.id == m.id) s = none := by
    rw [List.findIdx?_eq_none_iff]
    intro x hx
    simp only [beq_eq_false_iff_ne, ne_eq]
    intro hxm
    exact h (hxm ▸ List.mem_map_of_mem _ hx)
  rw [hnone]

/-- In a list of member rows with distinct primary keys, searching for the key
of the row at position `i` finds exactly position `i`. -/
theorem findIdx?_id_self (l : List GroupMember) :
    (l.map (fun m => m.id)).Nodup →
      ∀ (s i : ℕ) (hi : i < l.length),
        List.findIdx? (fun x => x.id == l[i].id) l s = some (s + i) := by
  induction l with
  | nil =>
    intro _ s i hi
    exact absurd hi (by simp)
  | cons a t ih =>
    intro hnd s i hi
    have hnd' : (a.id :: t.map (fun m => m.id)).Nodup := by simpa using hnd
    have hnotin : a.id ∉ t.map (fun m => m.id) := (List.nodup_cons.mp hnd').1
    have hndt : (t.map (fun m => m.id)).Nodup := (List.nodup_cons.mp hnd').2
    rw [List.findIdx?_cons]
    cases i with
    | zero => simp
    | succ j =>
      have hj : j < t.length := by simpa using hi
      have hgj : (a :: t)[j + 1] = t[j] := by simp
      have hne : (a.id == (a :: t)[j + 1].id) = false := by
        rw [hgj]
        simp only [beq_eq_false_iff_ne, ne_eq]
        intro heq
        exact hnotin (heq ▸ List.mem_map_of_mem _ (List.getElem_mem hj))
      rw [if_neg (by rw [hne]; exact Bool.false_ne_true)]
      have := ih hndt (s + 1) j hj
      rw [hgj]
      rw [this]
      congr 1
      omega

/-- The write-back over the ordered list itself produces the seat sequence
`1..n`. -/
theorem map_assign_self_seats (l : List GroupMember)
    (hnd : (l.map (fun m => m.id)).Nodup) :
    (l.map (assign_seat l)).map (fun m => m.seatNumber) = seatSeq l.length := by
  apply List.ext_getElem
  · simp [seatSeq_length]
  · intro i h1 h2
    have hi : i < l.length := by simpa using h1
    have hfind : List.findIdx? (fun x => x.id == l[i].id) l 0 = some i := by
      have := findIdx?_id_self l hnd 0 i hi
      simpa using this
    have hseat : (seatSeq l.length)[i] = (i : ℤ) + 1 := seatSeq_getElem _ _ hi h2
    rw [hseat]
    simp only [List.getElem_map]
    unfold assign_seat
    rw [hfind]

theorem inv_init (users : List User) (routes : List Route) :
    Inv (initState users routes) := by
  constructor <;> simp [initState, membersOf]

theorem inv_add_user (st : DBState) (user : User) (g : RideGroup)
    (hInv : Inv st) (hg : g ∈ st.groups) (hsize : g.currentSize < g.maxSize)
    (bid : ℕ) (lat lng : ℚ) :
    Inv (add_user_to_group st user g bid lat lng).1 := by
  unfold add_user_to_group
  dsimp only
  set newM : GroupMember :=
    { id := st.nextMemberId
      groupId := g.id
      userId := user.id
      joinedAt := st.clock
      userLat := lat
      userLng := lng
      seatNumber := g.currentSize + 1 } with hnewM
  constructor
  · -- members_sorted
    rw [List.pairwise_append]
    refine ⟨hInv.members_sorted, List.pairwise_singleton _ _, ?_⟩
    intro a ha b hb
    rw [List.mem_singleton] at hb
    subst hb
    exact hInv.members_clock a ha
  · -- members_clock
    intro m hm
    rcases List.mem_append.mp hm with hm1 | hm2
    · exact Nat.lt_succ_of_lt (hInv.members_clock m hm1)
    · rw [List.mem_singleton] at hm2
      subst hm2
      exact Nat.lt_succ_self _
  · -- member_ids_nodup
    rw [List.map_append, List.nodup_append]
    refine ⟨hInv.member_ids_nodup, by simp, ?_⟩
    intro a ha
    rcases List.mem_map.mp ha with ⟨m, hm, rfl⟩
    have := hInv.member_ids_lt m hm
    simp only [List.map_cons, List.map_nil, List.mem_singleton]
    omega
  · -- member_ids_lt
    intro m hm
    rcases List.mem_append.mp hm with hm1 | hm2
    · exact Nat.lt_succ_of_lt (hInv.member_ids_lt m hm1)
    · rw [List.mem_singleton] at hm2
      subst hm2
      exact Nat.lt_succ_self _
  · -- member_gids_lt
    intro m hm
    rcases List.mem_append.mp hm with hm1 | hm2
    · exact hInv.member_gids_lt m hm1
    · rw [List.mem_singleton] at hm2
      subst hm2
      exact hInv.group_ids_lt g hg
  · -- group_ids_nodup
    have hmap : (st.groups.map (fun g2 =>
        if g2.id == g.id then
          { g with
              currentSize := g.currentSize + 1
              firstUserJoinedAt :=
                match g.firstUserJoinedAt with
                | none => some st.clock
                | some t => some t }
        else g2)).map (fun x => x.id) = st.groups.map (fun x => x.id) := by
      rw [List.map_map]
      apply List.map_congr_left
      intro x hx
      by_cases hid : (x.id == g.id) = true
      · simp only [Function.comp_apply, hid, if_pos]
        exact (beq_iff_eq.mp hid).symm
      · have hne : ¬ x.id = g.id := by simpa using hid
        simp [Function.comp_apply, hne]
    rw [hmap]
    exact hInv.group_ids_nodup
  · -- group_ids_lt
    intro g2 hg2
    rcases List.mem_map.mp hg2 with ⟨x, hx, rfl⟩
    by_cases hid : (x.id == g.id) = true
    · simp only [hid, if_pos]
      exact hInv.group_ids_lt g hg
    · simp only [Bool.not_eq_true] at hid
      simp only [hid, Bool.false_eq_true, if_false]
      exact hInv.group_ids_lt x hx
  · -- size_eq
    intro g2 hg2
    rcases List.mem_map.mp hg2 with ⟨x, hx, rfl⟩
    by_cases hid : (x.id == g.id) = true
    · simp only [hid, if_pos]
      rw [membersOf_append_same st.members newM g.id rfl]
      have hlen := hInv.size_eq g hg
      simp only [List.length_append, List.length_singleton]
      push_cast
      omega
    · simp only [Bool.not_eq_true] at hid
      simp only [hid, Bool.false_eq_true, if_false]
      have hne : ¬ newM.groupId = x.id := by
        have : ¬ x.id = g.id := by simpa using hid
        simp only [hnewM]
        intro hcontra
        exact this hcontra.symm
      rw [membersOf_append_other st.members newM x.id hne]
      exact hInv.size_eq x hx
  · -- size_le
    intro g2 hg2
    rcases List.mem_map.mp hg2 with ⟨x, hx, rfl⟩
    by_cases hid : (x.id == g.id) = true
    · simp only [hid, if_pos]
      omega
    · simp only [Bool.not_eq_true] at hid
      simp only [hid, Bool.false_eq_true, if_false]
      exact hInv.size_le x hx
  · -- seats_eq
    intro g2 hg2
    rcases List.mem_map.mp hg2 with ⟨x, hx, rfl⟩
    by_cases hid : (x.id == g.id) = true
    · simp only [hid, if_pos]
      rw [membersOf_append_same st.members newM g.id rfl]
      have hseats := hInv.seats_eq g hg
      have hlen := hInv.size_eq g hg
      rw [List.map_append, hseats]
      simp only [List.length_append, List.length_singleton]
      rw [seatSeq_succ]
      congr 1
      simp only [hnewM, List.map_cons, List.map_nil]
      congr 1
      rw [hlen]
    · simp only [Bool.not_eq_true] at hid
      simp only [hid, Bool.false_eq_true, if_false]
      have hne : ¬ newM.groupId = x.id := by
        have : ¬ x.id = g.id := by simpa using hid
        simp only [hnewM]
        intro hcontra
        exact this hcontra.symm
      rw [membersOf_append_other st.members newM x.id hne]
      exact hInv.seats_eq x hx

theorem inv_leave_group_step (st : DBState) (uid : ℕ) (bk : BookingRequest)
    (hInv : Inv st) : Inv (leave_group_step st uid bk) := by
  unfold leave_group_step
  split
  next => exact hInv
  next gid hgid =>
    split
    next => exact hInv
    next g hfg =>
      split
      case isFalse hstat => exact hInv
      case isTrue hstat =>
        split
        next => exact hInv
        next m hfm =>
          have hmem : m ∈ st.members := List.mem_of_find?_eq_some hfm
          have hpred := List.find?_some hfm
          have hmgid : m.groupId = gid := by
            have h2 := (Bool.and_eq_true _ _).mp hpred
            exact beq_iff_eq.mp h2.1
          have hg_mem : g ∈ st.groups := List.mem_of_find?_eq_some hfg
          have hg_id : g.id = gid := by simpa using List.find?_some hfg
          have hq_unique : ∀ x ∈ st.members, (x.id == m.id) = true → x = m := by
            intro x hx hxe
            exact List.inj_on_of_nodup_map hInv.member_ids_nodup hx hmem
              (beq_iff_eq.mp hxe)
          have hsub : List.Sublist (st.members.eraseP (fun m2 => m2.id == m.id))
              st.members := List.eraseP_sublist _
          have hMo_other : ∀ gid2 : ℕ, ¬ gid2 = gid →
              membersOf (st.members.eraseP (fun m2 => m2.id == m.id)) gid2 =
                membersOf st.members gid2 := by
            intro gid2 hne
            unfold membersOf
            apply filter_eraseP_disjoint
            intro x hx hxe
            rw [hq_unique x hx hxe]
            rw [hmgid]
            exact beq_eq_false_iff_ne.mpr (fun hc => hne hc.symm)
          have hMo_gid : membersOf (st.members.eraseP (fun m2 => m2.id == m.id)) gid =
              (membersOf st.members gid).eraseP (fun m2 => m2.id == m.id) := by
            unfold membersOf
            apply filter_eraseP_comm
            intro x hx hxe
            rw [hq_unique x hx hxe]
            simp [hmgid]
          have hm_in : m ∈ membersOf st.members gid := by
            unfold membersOf
            exact List.mem_filter.mpr ⟨hmem, by simp [hmgid]⟩
          have hlen_pos : 0 < (membersOf st.members gid).length :=
            List.length_pos_of_mem hm_in
          have hlen1 : (membersOf (st.members.eraseP (fun m2 => m2.id == m.id)) gid).length =
              (membersOf st.members gid).length - 1 := by
            rw [hMo_gid]
            exact List.length_eraseP_of_mem hm_in (by simp)
          have hsorted1 : (st.members.eraseP (fun m2 => m2.id == m.id)).Pairwise
              (fun a b => a.joinedAt < b.joinedAt) :=
            hInv.members_sorted.sublist hsub
          have hids1 : ((st.members.eraseP (fun m2 => m2.id == m.id)).map
              (fun x => x.id)).Nodup :=
            hInv.member_ids_nodup.sublist (hsub.map _)
          by_cases hz : g.currentSize - 1 = 0
          · rw [if_pos hz]
            constructor
            · exact hsorted1
            · intro x hx
              exact hInv.members_clock x (hsub.subset hx)
            · exact hids1
            · intro x hx
              exact hInv.member_ids_lt x (hsub.subset hx)
            · intro x hx
              exact hInv.member_gids_lt x (hsub.subset hx)
            · exact hInv.group_ids_nodup.sublist ((List.filter_sublist _).map _)
            · intro g2 hg2
              exact hInv.group_ids_lt g2 (List.mem_of_mem_filter hg2)
            · intro g2 hg2
              have hg2m := List.mem_of_mem_filter hg2
              have hg2ne : ¬ g2.id = gid := by
                simpa using (List.mem_filter.mp hg2).2
              rw [hMo_other g2.id hg2ne]
              exact hInv.size_eq g2 hg2m
            · intro g2 hg2
              exact hInv.size_le g2 (List.mem_of_mem_filter hg2)
            · intro g2 hg2
              have hg2m := List.mem_of_mem_filter hg2
              have hg2ne : ¬ g2.id = gid := by
                simpa using (List.mem_filter.mp hg2).2
              rw [hMo_other g2.id hg2ne]
              exact hInv.seats_eq g2 hg2m
          · rw [if_neg hz]
            have hpair_f : (membersOf (st.members.eraseP (fun m2 => m2.id == m.id)) gid).Pairwise
                (fun a b => a.joinedAt < b.joinedAt) := by
              unfold membersOf
              exact hsorted1.filter _
            have hsorted_f : List.Sorted byJoinedAt
                (membersOf (st.members.eraseP (fun m2 => m2.id == m.id)) gid) :=
              hpair_f.imp (fun h => le_of_lt h)
            have hreass : reassign_seat_numbers (st.members.eraseP (fun m2 => m2.id == m.id)) gid =
                (st.members.eraseP (fun m2 => m2.id == m.id)).map
                  (assign_seat (membersOf (st.members.eraseP (fun m2 => m2.id == m.id)) gid)) := by
              unfold reassign_seat_numbers
              rw [hsorted_f.insertionSort_eq]
            rw [hreass]
            have hids_l : ((membersOf (st.members.eraseP (fun m2 => m2.id == m.id)) gid).map
                (fun x => x.id)).Nodup := by
              unfold membersOf
              exact hids1.sublist ((List.filter_sublist _).map _)
            have hfix : ∀ x ∈ st.members.eraseP (fun m2 => m2.id == m.id), ¬ x.groupId = gid →
                assign_seat (membersOf (st.members.eraseP (fun m2 => m2.id == m.id)) gid) x = x := by
              intro x hx hxg
              apply assign_seat_of_not_mem
              intro hmemid
              rcases List.mem_map.mp hmemid with ⟨y, hy, hyid⟩
              have hy1 : y ∈ st.members.eraseP (fun m2 => m2.id == m.id) :=
                List.mem_of_mem_filter hy
              have hyx : y = x := List.inj_on_of_nodup_map hids1 hy1 hx hyid
              have hyg : y.groupId = gid := by
                have := (List.mem_filter.mp hy).2
                simpa using this
              exact hxg (hyx ▸ hyg)
            have hcomm : membersOf ((st.members.eraseP (fun m2 => m2.id == m.id)).map
                (assign_seat (membersOf (st.members.eraseP (fun m2 => m2.id == m.id)) gid))) gid =
                (membersOf (st.members.eraseP (fun m2 => m2.id == m.id)) gid).map
                  (assign_seat (membersOf (st.members.eraseP (fun m2 => m2.id == m.id)) gid)) := by
              unfold membersOf
              apply filter_map_pres
              intro y
              rw [assign_seat_groupId]
            have hcomm_other : ∀ gid2 : ℕ, ¬ gid2 = gid →
                membersOf ((st.members.eraseP (fun m2 => m2.id == m.id)).map
                  (assign_seat (membersOf (st.members.eraseP (fun m2 => m2.id == m.id)) gid))) gid2 =
                membersOf st.members gid2 := by
              intro gid2 hne
              have h1 : membersOf ((st.members.eraseP (fun m2 => m2.id == m.id)).map
                  (assign_seat (membersOf (st.members.eraseP (fun m2 => m2.id == m.id)) gid))) gid2 =
                  (membersOf (st.members.eraseP (fun m2 => m2.id == m.id)) gid2).map
                    (assign_seat (membersOf (st.members.eraseP (fun m2 => m2.id == m.id)) gid)) := by
                unfold membersOf
                apply filter_map_pres
                intro y
                rw [assign_seat_groupId]
              rw [h1]
              have h2 : (membersOf (st.members.eraseP (fun m2 => m2.id == m.id)) gid2).map
                  (assign_seat (membersOf (st.members.eraseP (fun m2 => m2.id == m.id)) gid)) =
                  membersOf (st.members.eraseP (fun m2 => m2.id == m.id)) gid2 := by
                have hmapid : ∀ x ∈ membersOf (st.members.eraseP (fun m2 => m2.id == m.id)) gid2,
                    assign_seat (membersOf (st.members.eraseP (fun m2 => m2.id == m.id)) gid) x = x := by
                  intro x hx
                  have hx1 : x ∈ st.members.eraseP (fun m2 => m2.id == m.id) :=
                    List.mem_of_mem_filter hx
                  have hxg : x.groupId = gid2 := by
                    simpa using (List.mem_filter.mp hx).2
                  exact hfix x hx1 (by rw [hxg]; exact hne)
                have h3 : (membersOf (st.members.eraseP (fun m2 => m2.id == m.id)) gid2).map
                    (assign_seat (membersOf (st.members.eraseP (fun m2 => m2.id == m.id)) gid)) =
                    (membersOf (st.members.eraseP (fun m2 => m2.id == m.id)) gid2).map id :=
                  List.map_congr_left (fun a ha => hmapid a ha)
                rw [h3, List.map_id]
              rw [h2]
              exact hMo_other gid2 hne
            constructor
            · rw [List.pairwise_map]
              exact hsorted1.imp (by
                intro a b hab
                rwa [assign_seat_joinedAt, assign_seat_joinedAt])
            · intro x hx
              rcases List.mem_map.mp hx with ⟨y, hy, rfl⟩
              rw [assign_seat_joinedAt]
              exact hInv.members_clock y (hsub.subset hy)
            · have hmapids : ((st.members.eraseP (fun m2 => m2.id == m.id)).map
                  (assign_seat (membersOf (st.members.eraseP (fun m2 => m2.id == m.id)) gid))).map
                  (fun x => x.id) =
                  (st.members.eraseP (fun m2 => m2.id == m.id)).map (fun x => x.id) := by
                rw [List.map_map]
                apply List.map_congr_left
                intro y _
                exact assign_seat_id _ _
              rw [hmapids]
              exact hids1
            · intro x hx
              rcases List.mem_map.mp hx with ⟨y, hy, rfl⟩
              rw [assign_seat_id]
              exact hInv.member_ids_lt y (hsub.subset hy)
            · intro x hx
              rcases List.mem_map.mp hx with ⟨y, hy, rfl⟩
              rw [assign_seat_groupId]
              exact hInv.member_gids_lt y (hsub.subset hy)
            · have hmap : (st.groups.map (fun g2 =>
                  if g2.id == gid then { g2 with currentSize := g.currentSize - 1 }
                  else g2)).map (fun x => x.id) = st.groups.map (fun x => x.id) := by
                rw [List.map_map]
                apply List.map_congr_left
                intro x _
                by_cases hid : (x.id == gid) = true
                · simp only [Function.comp_apply, hid, if_pos]
                · have hne : ¬ x.id = gid := by simpa using hid
                  simp [Function.comp_apply, hne]
              rw [hmap]
              exact hInv.group_ids_nodup
            · intro g2 hg2
              rcases List.mem_map.mp hg2 with ⟨x, hx, rfl⟩
              by_cases hid : (x.id == gid) = true
              · simp only [hid, if_pos]
                exact hInv.group_ids_lt x hx
              · have hne : ¬ x.id = gid := by simpa using hid
                simp only [beq_eq_false_iff_ne.mpr hne, Bool.false_eq_true, if_false]
                exact hInv.group_ids_lt x hx
            · intro g2 hg2
              rcases List.mem_map.mp hg2 with ⟨x, hx, rfl⟩
              by_cases hid : (x.id == gid) = true
              · have hx_eq_g : x = g := by
                  apply List.inj_on_of_nodup_map hInv.group_ids_nodup hx hg_mem
                  rw [beq_iff_eq.mp hid, hg_id]
                simp only [hid, if_pos]
                subst hx_eq_g
                rw [hg_id, hcomm, List.length_map, hlen1]
                have hsz := hInv.size_eq x hg_mem
                rw [hg_id] at hsz
                omega
              · have hne : ¬ x.id = gid := by simpa using hid
                simp only [beq_eq_false_iff_ne.mpr hne, Bool.false_eq_true, if_false]
                rw [hcomm_other x.id hne]
                exact hInv.size_eq x hx
            · intro g2 hg2
              rcases List.mem_map.mp hg2 with ⟨x, hx, rfl⟩
              by_cases hid : (x.id == gid) = true
              · simp only [hid, if_pos]
                have hx_eq_g2 : x = g := by
                  apply List.inj_on_of_nodup_map hInv.group_ids_nodup hx hg_mem
                  rw [beq_iff_eq.mp hid, hg_id]
                subst hx_eq_g2
                have := hInv.size_le x hx
                omega
              · have hne : ¬ x.id = gid := by simpa using hid
                simp only [beq_eq_false_iff_ne.mpr hne, Bool.false_eq_true, if_false]
                exact hInv.size_le x hx
            · intro g2 hg2
              rcases List.mem_map.mp hg2 with ⟨x, hx, rfl⟩
              by_cases hid : (x.id == gid) = true
              · simp only [hid, if_pos]
                have hgoal := map_assign_self_seats
                  (membersOf (st.members.eraseP (fun m2 => m2.id == m.id)) gid) hids_l
                have hxid : x.id = gid := beq_iff_eq.mp hid
                rw [hxid, hcomm, hgoal, List.length_map]
              · have hne : ¬ x.id = gid := by simpa using hid
                simp only [beq_eq_false_iff_ne.mpr hne, Bool.false_eq_true, if_false]
                rw [hcomm_other x.id hne]
                exact hInv.seats_eq x hx

theorem can_accept_user_size {g : RideGroup} {u : User}
    (h : g.can_accept_user u = true) : g.currentSize < g.maxSize := by
  unfold RideGroup.can_accept_user at h
  by_cases hf : g.is_full = true
  · rw [if_pos hf] at h
    exact absurd h (by simp)
  · unfold RideGroup.is_full at hf
    simp only [decide_eq_true_eq] at hf
    omega

theorem candidate_groups_subset {groups : List RideGroup} {user : User}
    {routeId : ℕ} {w : Bool} :
    ∀ g ∈ candidate_groups groups user routeId w, g ∈ groups := by
  intro g h
  unfold candidate_groups at h
  by_cases hw : (w || user.gender == "FEMALE") = true
  · rw [if_pos hw] at h
    exact List.mem_of_mem_filter (List.mem_of_mem_filter h)
  · rw [if_neg hw] at h
    exact List.mem_of_mem_filter (List.mem_of_mem_filter h)

theorem inv_set_bookings (st : DBState) (B : List BookingRequest) (n : ℕ)
    (hInv : Inv st) : Inv { st with bookings := B, nextBookingId := n } := by
  cases hInv
  constructor <;> assumption

theorem inv_find_or_create (st : DBState) (user : User) (routeId : ℕ) (w : Bool)
    (hInv : Inv st) :
    Inv (find_or_create_group st user routeId w).1 ∧
    (find_or_create_group st user routeId w).2 ∈
      (find_or_create_group st user routeId w).1.groups ∧
    (find_or_create_group st user routeId w).2.currentSize <
      (find_or_create_group st user routeId w).2.maxSize := by
  unfold find_or_create_group
  split
  next g hfind =>
    refine ⟨hInv, ?_, ?_⟩
    · have hmem_sorted : g ∈ List.insertionSort bySizeDesc
          (candidate_groups st.groups user routeId w) :=
        List.mem_of_find?_eq_some hfind
      have hmem_cand : g ∈ candidate_groups st.groups user routeId w :=
        (List.perm_insertionSort bySizeDesc _).subset hmem_sorted
      exact candidate_groups_subset g hmem_cand
    · have hacc : g.can_accept_user user = true := by
        simpa using List.find?_some hfind
      exact can_accept_user_size hacc
  next hfind =>
    refine ⟨?_, ?_, ?_⟩
    · constructor
      · exact hInv.members_sorted
      · exact hInv.members_clock
      · exact hInv.member_ids_nodup
      · exact hInv.member_ids_lt
      · intro m hm
        exact Nat.lt_succ_of_lt (hInv.member_gids_lt m hm)
      · rw [List.map_append, List.nodup_append]
        refine ⟨hInv.group_ids_nodup, by simp, ?_⟩
        intro a ha
        rcases List.mem_map.mp ha with ⟨g2, hg2, rfl⟩
        have := hInv.group_ids_lt g2 hg2
        simp only [List.map_cons, List.map_nil, List.mem_singleton]
        omega
      · intro g2 hg2
        rcases List.mem_append.mp hg2 with hg2a | hg2b
        · exact Nat.lt_succ_of_lt (hInv.group_ids_lt g2 hg2a)
        · rw [List.mem_singleton] at hg2b
          subst hg2b
          exact Nat.lt_succ_self _
      · intro g2 hg2
        rcases List.mem_append.mp hg2 with hg2a | hg2b
        · exact hInv.size_eq g2 hg2a
        · rw [List.mem_singleton] at hg2b
          subst hg2b
          have hnil : membersOf st.members st.nextGroupId = [] := by
            unfold membersOf
            rw [List.filter_eq_nil_iff]
            intro m hm
            have := hInv.member_gids_lt m hm
            simp only [beq_iff_eq]
            omega
          rw [hnil]
          rfl
      · intro g2 hg2
        rcases List.mem_append.mp hg2 with hg2a | hg2b
        · exact hInv.size_le g2 hg2a
        · rw [List.mem_singleton] at hg2b
          subst hg2b
          norm_num
      · intro g2 hg2
        rcases List.mem_append.mp hg2 with hg2a | hg2b
        · exact hInv.seats_eq g2 hg2a
        · rw [List.mem_singleton] at hg2b
          subst hg2b
          have hnil : membersOf st.members st.nextGroupId = [] := by
            unfold membersOf
            rw [List.filter_eq_nil_iff]
            intro m hm
            have := hInv.member_gids_lt m hm
            simp only [beq_iff_eq]
            omega
          rw [hnil]
          rfl
    · exact List.mem_append.mpr (Or.inr (List.mem_singleton.mpr rfl))
    · norm_num

theorem inv_join (st : DBState) (uid rid : ℕ) (lat lng : ℚ) (w : Bool)
    (hInv : Inv st) {st2 : DBState} {res : JoinResult}
    (hok : join_queue st uid rid lat lng w = .ok (st2, res)) : Inv st2 := by
  unfold join_queue at hok
  split at hok
  next => simp at hok
  next user huser =>
    split at hok
    next => simp at hok
    next route hroute =>
      split at hok
      next => simp at hok
      next =>
        split at hok
        next => simp at hok
        next =>
          injection hok with hpair
          have hst2 : st2 = (add_user_to_group
              (find_or_create_group
                { st with
                    bookings := st.bookings ++
                      [{ id := st.nextBookingId
                         userId := uid
                         routeId := rid
                         status := .SEARCHING
                         requestLat := lat
                         requestLng := lng
                         womenOnlyPreference := w
                         groupId := none
                         groupedAt := none }]
                    nextBookingId := st.nextBookingId + 1 } user rid w).1 user
              (find_or_create_group
                { st with
                    bookings := st.bookings ++
                      [{ id := st.nextBookingId
                         userId := uid
                         routeId := rid
                         status := .SEARCHING
                         requestLat := lat
                         requestLng := lng
                         womenOnlyPreference := w
                         groupId := none
                         groupedAt := none }]
                    nextBookingId := st.nextBookingId + 1 } user rid w).2
              st.nextBookingId lat lng).1 :=
            (congrArg Prod.fst hpair).symm
      -- done below
          have hInv1 : Inv { st with
              bookings := st.bookings ++
                [{ id := st.nextBookingId
                   userId := uid
                   routeId := rid
                   status := .SEARCHING
                   requestLat := lat
                   requestLng := lng
                   womenOnlyPreference := w
                   groupId := none
                   groupedAt := none }]
              nextBookingId := st.nextBookingId + 1 } :=
            inv_set_bookings st _ _ hInv
          have hFI := inv_find_or_create _ user rid w hInv1
          rw [hst2]
          exact inv_add_user _ user _ hFI.1 hFI.2.1 hFI.2.2 st.nextBookingId lat lng

theorem inv_leave (st : DBState) (uid : ℕ) (hInv : Inv st) {st2 : DBState}
    (hok : leave_queue st uid = .ok st2) : Inv st2 := by
  unfold leave_queue at hok
  split at hok
  next => simp at hok
  next bk hbk =>
    injection hok with h
    have hst2 : st2 = { leave_group_step st uid bk with
        bookings := (leave_group_step st uid bk).bookings.map (fun b =>
          if b.id == bk.id then { b with status := .CANCELLED } else b) } := h.symm
    rw [hst2]
    exact inv_set_bookings _ _ _ (inv_leave_group_step st uid bk hInv)

theorem inv_applyOp (st : DBState) (op : QueueOp) (hInv : Inv st) :
    Inv (applyOp st op) := by
  cases op with
  | join u r lat lng w =>
    have hred : applyOp st (QueueOp.join u r lat lng w) =
        (match join_queue st u r lat lng w with
          | .ok (st2, _) => st2
          | .error _ => st) := rfl
    rw [hred]
    split
    next st2 snd hok => exact inv_join st u r lat lng w hInv hok
    next => exact hInv
  | leave u =>
    have hred : applyOp st (QueueOp.leave u) =
        (match leave_queue st u with
          | .ok st2 => st2
          | .error _ => st) := rfl
    rw [hred]
    split
    next st2 hok => exact inv_leave st u hInv hok
    next => exact hInv

theorem inv_runOps (st : DBState) (ops : List QueueOp) (hInv : Inv st) :
    Inv (runOps st ops) := by
  induction ops generalizing st with
  | nil => exact hInv
  | cons op rest ih => exact ih (applyOp st op) (inv_applyOp st op hInv)

/-- In a list sorted by descending `current_size`, the first element matching
`p` has maximal `current_size` among the matching elements. -/
theorem find?_sorted_size_max {l : List RideGroup} (hs : List.Sorted bySizeDesc l)
    {p : RideGroup → Bool} {g : RideGroup} (hfind : l.find? p = some g) :
    ∀ g2 ∈ l, p g2 = true → g2.currentSize ≤ g.currentSize := by
  induction l with
  | nil => simp at hfind
  | cons a t ih =>
    by_cases hpa : p a = true
    · rw [List.find?_cons_of_pos _ hpa] at hfind
      injection hfind with hag
      intro g2 hg2 hp2
      rcases List.mem_cons.mp hg2 with rfl | hg2t
      · rw [← hag]
      · have hdesc := (List.sorted_cons.mp hs).1 g2 hg2t
        rw [← hag]
        exact hdesc
    · rw [List.find?_cons_of_neg _ hpa] at hfind
      intro g2 hg2 hp2
      rcases List.mem_cons.mp hg2 with rfl | hg2t
      · exact absurd hp2 hpa
      · exact ih (List.sorted_cons.mp hs).2 hfind g2 hg2t hp2

end QueueService

namespace SmartDispatchService

/-- The score the sweep computes for `group_2of4` after 601 s with historical
probability 50 and no pending booking: `0.40*50 + 0.35*0 + 0.15*5 + 0.10*60 =
26.75`. -/
theorem sweep_score_601 :
    sweep_final_probability group_2of4 601 50 pa_none = 2675/100 := by
  unfold sweep_final_probability ProbabilityCalculator.calculate_final_probability
  unfold ProbabilityCalculator.normalize_historical
  unfold ProbabilityCalculator.calculate_proximity_score
  unfold ProbabilityCalculator.calculate_wait_time_score
  unfold ProbabilityCalculator.calculate_group_size_score
  unfold ProbabilityCalculator.roundTo2 clip group_2of4 pa_none
  norm_num [round_eq]

/-- The same score applies to `group_2of5`: the call site passes the constant
4, not the group field, so the score ignores `max_size = 5`. -/
theorem sweep_score_601_g5 :
    sweep_final_probability group_2of5 601 50 pa_none = 2675/100 := by
  unfold sweep_final_probability ProbabilityCalculator.calculate_final_probability
  unfold ProbabilityCalculator.normalize_historical
  unfold ProbabilityCalculator.calculate_proximity_score
  unfold ProbabilityCalculator.calculate_wait_time_score
  unfold ProbabilityCalculator.calculate_group_size_score
  unfold ProbabilityCalculator.roundTo2 clip group_2of5 group_2of4 pa_none
  norm_num [round_eq]

/-- Concrete evaluation of the sweep body on `group_2of4` after 601 s: rule
(d) fires (601 > 600) and the group is dispatched with type EARLY_DISPATCH. -/
theorem analyze_601_eq :
    analyze_and_decide group_2of4 601 50 pa_none =
      { result := "dispatched"
        group := dispatch_group_record group_2of4 .EARLY_DISPATCH (2675/100)
        logs := [{ groupId := 8
                   groupSizeAtDecision := 2
                   waitTimeSeconds := 601
                   pendingBookingsCount := 0
                   nearestPendingDistanceMeters := 9999
                   historicalProbability := none
                   finalProbabilityScore := 2675/100
                   decisionMade := "DISPATCH_NOW"
                   reasoning := "Maximum wait time exceeded" }] } := by
  unfold analyze_and_decide
  simp only [sweep_score_601]
  unfold make_decision log_decision ProximityAnalysis.get
  unfold MIN_WAIT_TIME_SECONDS MAX_WAIT_TIME_SECONDS
  unfold PROBABILITY_THRESHOLD_LOW PROBABILITY_THRESHOLD_HIGH
  norm_num [group_2of4, pa_none, RideGroup.is_full]
  decide

end SmartDispatchService

open SmartDispatchService in
/-- Claim C3, counterexample: a full FORMING group whose oldest member has
waited 0 s (< 60 s) is not skipped — rule 0 dispatches it before the age check
— so skipping is not decided by `waitTimeSec < 60` "regardless of size". -/
theorem claim_C3_counterexample :
    (analyze_and_decide group_full4 0 50 pa_none).result = "dispatched" ∧
    (analyze_and_decide group_full4 0 50 pa_none).result ≠ "skipped" ∧
    ((0:ℤ) < 60) := by
  refine ⟨by decide, by decide, by decide⟩

open SmartDispatchService in
/-- Claim C3 (amended): a FORMING group evaluated by the sweep is skipped —
state unchanged, no `DecisionLogEntry` appended — exactly when it is not full
and its `waitTimeSec` is strictly below 60; in particular `waitTimeSec = 60`
is evaluated, and a full group is dispatched rather than skipped whatever its
age. -/
theorem claim_C3_skip_iff (g : RideGroup) (wait : ℤ) (h : ℚ)
    (pa : ProximityAnalysis) :
    ((analyze_and_decide g wait h pa).result = "skipped" ↔
      (g.is_full = false ∧ wait < 60)) ∧
    ((analyze_and_decide g wait h pa).result = "skipped" →
      (analyze_and_decide g wait h pa).group = g ∧
        (analyze_and_decide g wait h pa).logs = []) := by
  unfold analyze_and_decide
  by_cases hf : g.is_full
  · simp [hf]
  · by_cases hw : wait < 60
    · simp [hf, hw]
    · simp only [hf, hw, Bool.false_eq_true, if_false, if_neg hw]
      constructor
      · simp [Bool.not_eq_true] at hf
        simp [hf, hw]
        split <;> simp
      · intro hres
        exfalso
        revert hres
        split <;> simp

open SmartDispatchService in
/-- Claim C3, witness: a half-full group of age 30 s is skipped untouched. -/
theorem claim_C3_witness :
    (analyze_and_decide group_2of4 30 50 pa_none).group = group_2of4 ∧
    (analyze_and_decide group_2of4 30 50 pa_none).logs = [] :=
  (claim_C3_skip_iff group_2of4 30 50 pa_none).2 (by decide)

open SmartDispatchService in
/-- Claim C1, counterexample: on `group_2of4` after 601 s with historical
probability 50 and no pending booking, none of rules (a)-(c) fires and
`waitTimeSec > 600`, yet the dispatch records decision type EARLY_DISPATCH:
the engine never writes FORCED (`_execute_decision` passes EARLY_DISPATCH for
every DISPATCH_NOW decision). -/
theorem claim_C1_counterexample :
    ¬(pa_none.pendingCount ≥ 2 ∧ pa_none.nearestDistanceMeters < 500 ∧
        (601:ℤ) > MIN_WAIT_TIME_SECONDS) ∧
    ¬(sweep_final_probability group_2of4 601 50 pa_none <
        PROBABILITY_THRESHOLD_LOW ∧ (601:ℤ) > MIN_WAIT_TIME_SECONDS) ∧
    ¬(sweep_final_probability group_2of4 601 50 pa_none >
        PROBABILITY_THRESHOLD_HIGH) ∧
    ((601:ℤ) > MAX_WAIT_TIME_SECONDS) ∧
    (analyze_and_decide group_2of4 601 50 pa_none).result = "dispatched" ∧
    (analyze_and_decide group_2of4 601 50 pa_none).group.dispatchDecisionType ≠
      some DispatchDecisionType.FORCED := by
  refine ⟨by decide, ?_, ?_, by decide, ?_, ?_⟩
  · rw [sweep_score_601]
    norm_num [PROBABILITY_THRESHOLD_LOW]
  · rw [sweep_score_601]
    norm_num [PROBABILITY_THRESHOLD_HIGH]
  · rw [analyze_601_eq]
  · rw [analyze_601_eq]
    simp [dispatch_group_record]

open SmartDispatchService in
/-- Claim C1 (amended): for a FORMING group the sweep evaluates (not full, at
least 60 s old) on which rules (a)-(c) do not fire, the engine dispatches —
with decision type EARLY_DISPATCH, the only type `_execute_decision` ever
writes — if and only if `waitTimeSec` is strictly greater than 600; in
particular `waitTimeSec = 600` does not trigger the safety-net dispatch. -/
theorem claim_C1_forced_dispatch_iff (g : RideGroup) (wait : ℤ) (h : ℚ)
    (pa : ProximityAnalysis)
    (hful : g.is_full = false) (hage : ¬ wait < 60)
    (hA : ¬(pa.pendingCount ≥ 2 ∧ pa.nearestDistanceMeters < 500 ∧
      wait > MIN_WAIT_TIME_SECONDS))
    (hB : ¬(sweep_final_probability g wait h pa < PROBABILITY_THRESHOLD_LOW ∧
      wait > MIN_WAIT_TIME_SECONDS))
    (hC : ¬(sweep_final_probability g wait h pa > PROBABILITY_THRESHOLD_HIGH)) :
    ((analyze_and_decide g wait h pa).result = "dispatched" ∧
      (analyze_and_decide g wait h pa).group.dispatchDecisionType =
        some DispatchDecisionType.EARLY_DISPATCH) ↔
      wait > MAX_WAIT_TIME_SECONDS := by
  unfold analyze_and_decide
  simp only [hful, Bool.false_eq_true, if_false, if_neg hage]
  unfold make_decision
  rw [if_neg hA, if_neg hB, if_neg hC]
  by_cases h6 : wait > MAX_WAIT_TIME_SECONDS
  · rw [if_pos h6]
    simp [dispatch_group_record, h6]
  · rw [if_neg h6]
    simp [h6]

open SmartDispatchService in
/-- Claim C1, witness: the amended rule at `wait = 601` on a concrete group
where rules (a)-(c) are all off. -/
theorem claim_C1_witness :
    (analyze_and_decide group_2of4 601 50 pa_none).result = "dispatched" ∧
    (analyze_and_decide group_2of4 601 50 pa_none).group.dispatchDecisionType =
      some DispatchDecisionType.EARLY_DISPATCH :=
  (claim_C1_forced_dispatch_iff group_2of4 601 50 pa_none (by decide) (by decide)
    (by decide)
    (by rw [sweep_score_601]; norm_num [PROBABILITY_THRESHOLD_LOW])
    (by rw [sweep_score_601]; norm_num [PROBABILITY_THRESHOLD_HIGH])).mpr
    (by decide)

open SmartDispatchService in
/-- Claim C4, counterexample: a full-group dispatch appends no
`DecisionLogEntry` at all (rule 0 returns before `_log_decision`), and on the
scored path the entry's `historical_probability` is `None` — not the
historical probability the decision used — because `_log_decision` reads the
key `historical_prob` from the proximity dict, which has no such key. -/
theorem claim_C4_counterexample :
    (analyze_and_decide group_full4 120 50 pa_none).result = "dispatched" ∧
    (analyze_and_decide group_full4 120 50 pa_none).logs = [] ∧
    ((analyze_and_decide group_2of4 601 50 pa_none).logs.map
      fun l => l.historicalProbability) = [none] := by
  refine ⟨by decide, by decide, ?_⟩
  rw [analyze_601_eq]
  simp

open SmartDispatchService in
/-- Claim C4 (amended): every evaluation that reaches the scoring path (group
not full, `waitTimeSec ≥ 60`) appends exactly one `DecisionLogEntry`, whether
the decision is DISPATCH or WAIT, recording the group snapshot, the pending
count, the nearest distance, the final score, the action and the reasoning —
but its historical-probability column is always `None` (the code reads a key
absent from the proximity dict), and a full-group dispatch appends no entry. -/
theorem claim_C4_log_contents (g : RideGroup) (wait : ℤ) (h : ℚ)
    (pa : ProximityAnalysis) :
    (g.is_full = false → ¬ wait < 60 →
      (analyze_and_decide g wait h pa).logs =
        [{ groupId := g.id
           groupSizeAtDecision := g.currentSize
           waitTimeSeconds := wait
           pendingBookingsCount := pa.pendingCount
           nearestPendingDistanceMeters := pa.nearestDistanceMeters
           historicalProbability := none
           finalProbabilityScore := sweep_final_probability g wait h pa
           decisionMade := (make_decision (sweep_final_probability g wait h pa)
             wait pa).action
           reasoning := (make_decision (sweep_final_probability g wait h pa)
             wait pa).reasoning }]) ∧
    (g.is_full = true → (analyze_and_decide g wait h pa).logs = []) := by
  constructor
  · intro hful hage
    unfold analyze_and_decide
    simp only [hful, Bool.false_eq_true, if_false, if_neg hage]
    unfold log_decision
    have hget : pa.get "historical_prob" = none := by
      simp [ProximityAnalysis.get]
    split <;> simp [hget]
  · intro hf
    unfold analyze_and_decide
    simp [hf]

open SmartDispatchService in
/-- Claim C4, witness: the amended statement at the concrete scored
evaluation of `group_2of4` after 601 s. -/
theorem claim_C4_witness :
    (analyze_and_decide group_2of4 601 50 pa_none).logs =
      [{ groupId := group_2of4.id
         groupSizeAtDecision := group_2of4.currentSize
         waitTimeSeconds := 601
         pendingBookingsCount := pa_none.pendingCount
         nearestPendingDistanceMeters := pa_none.nearestDistanceMeters
         historicalProbability := none
         finalProbabilityScore := sweep_final_probability group_2of4 601 50 pa_none
         decisionMade := (make_decision
           (sweep_final_probability group_2of4 601 50 pa_none) 601 pa_none).action
         reasoning := (make_decision
           (sweep_final_probability group_2of4 601 50 pa_none) 601 pa_none).reasoning }] :=
  (claim_C4_log_contents group_2of4 601 50 pa_none).1 (by decide) (by decide)

open SmartDispatchService in
/-- Claim C10: the sweep scores a group by calling the calculator without a
`max_size` argument, so the fill component uses the constant default 4
(`fill_ratio = current_size / 4`), not the group's own `max_size`; hence for
any nonempty group whose `max_size` is not 4, the ratio the score uses
differs from `current_size / max_size`. (Nonemptiness holds for every group a
sweep sees: a join never leaves a created group empty and `leave_queue`
deletes a group that empties.) -/
theorem claim_C10_fill_uses_default_4 (g : RideGroup) (wait : ℤ) (h : ℚ)
    (pa : ProximityAnalysis)
    (hful : g.is_full = false) (hage : ¬ wait < 60) (hsz : 0 < g.currentSize) :
    ((analyze_and_decide g wait h pa).logs.map fun l => l.finalProbabilityScore) =
      [ProbabilityCalculator.calculate_final_probability h pa.pendingCount
        pa.nearestDistanceMeters wait g.currentSize 4] ∧
    (g.maxSize ≠ 4 →
      (g.currentSize : ℚ) / 4 ≠ (g.currentSize : ℚ) / (g.maxSize : ℚ)) := by
  constructor
  · unfold analyze_and_decide
    simp only [hful, Bool.false_eq_true, if_false, if_neg hage]
    split <;> simp [log_decision, sweep_final_probability]
  · intro hne heq
    have ha : (0:ℚ) < (g.currentSize : ℚ) := by exact_mod_cast hsz
    by_cases hm : (g.maxSize : ℚ) = 0
    · rw [hm, div_zero] at heq
      have hpos : (0:ℚ) < (g.currentSize : ℚ) / 4 := by positivity
      rw [heq] at hpos
      exact lt_irrefl 0 hpos
    · have h4 : (4:ℚ) ≠ 0 := by norm_num
      rw [div_eq_div_iff h4 hm] at heq
      have hcancel : (g.maxSize : ℚ) = 4 := by
        have := mul_left_cancel₀ (ne_of_gt ha) heq
        linarith [this]
      have : g.maxSize = 4 := by exact_mod_cast hcancel
      exact hne this

open SmartDispatchService in
/-- Claim C10, witness: a 2-of-5 group is scored with fill ratio 2/4, and
2/4 differs from 2/5. -/
theorem claim_C10_witness :
    ((analyze_and_decide group_2of5 601 50 pa_none).logs.map
      fun l => l.finalProbabilityScore) =
      [ProbabilityCalculator.calculate_final_probability 50 pa_none.pendingCount
        pa_none.nearestDistanceMeters 601 group_2of5.currentSize 4] ∧
    ((group_2of5.currentSize : ℚ) / 4 ≠
      (group_2of5.currentSize : ℚ) / (group_2of5.maxSize : ℚ)) :=
  ⟨(claim_C10_fill_uses_default_4 group_2of5 601 50 pa_none (by decide) (by decide)
      (by decide)).1,
   (claim_C10_fill_uses_default_4 group_2of5 601 50 pa_none (by decide) (by decide)
      (by decide)).2 (by decide)⟩

/-- Claim C8: `calculate_final_probability` is the weighted sum
`0.40*historical + 0.35*proximity + 0.15*waitTime + 0.10*fill` of the four
component step functions, with the historical input clamped to `[0,100]`,
clamped to `[0,100]` and rounded to 2 decimals — and therefore lies in
`[0,100]` for every input, however far out of range the historical
probability is. (`0 < max_size` matches the domain of the Python function,
which would raise `ZeroDivisionError` at `max_size = 0`.) -/
theorem claim_C8_final_score (h : ℚ) (p d w c m : ℤ) (hm : 0 < m) :
    ProbabilityCalculator.calculate_final_probability h p d w c m =
      ProbabilityCalculator.roundTo2 (clip
        (ProbabilityCalculator.normalize_historical h * (40/100) +
         ProbabilityCalculator.calculate_proximity_score p d * (35/100) +
         ProbabilityCalculator.calculate_wait_time_score w * (15/100) +
         ProbabilityCalculator.calculate_group_size_score c m * (10/100)) 0 100) ∧
    0 ≤ ProbabilityCalculator.calculate_final_probability h p d w c m ∧
    ProbabilityCalculator.calculate_final_probability h p d w c m ≤ 100 := by
  refine ⟨rfl, ?_, ?_⟩
  · exact ProbabilityCalculator.roundTo2_nonneg (ProbabilityCalculator.clip_nonneg _)
  · exact ProbabilityCalculator.roundTo2_le (ProbabilityCalculator.clip_le _)

/-- Claim C8, witness: an out-of-range historical input (150) still yields a
score in `[0,100]`. -/
theorem claim_C8_witness :
    0 ≤ ProbabilityCalculator.calculate_final_probability 150 0 9999 180 2 4 ∧
    ProbabilityCalculator.calculate_final_probability 150 0 9999 180 2 4 ≤ 100 :=
  (claim_C8_final_score 150 0 9999 180 2 4 (by decide)).2

/-- Claim C9, counterexample: at the out-of-range latitude 200 the code still
returns a numeric result (`.ok` of the truncated Haversine value) — it has no
validation branch — while the spec function rejects the input. -/
theorem claim_C9_counterexample :
    Geo.calculate_distance 200 0 0 0 =
      .ok (Geo.int_trunc (Geo.haversine_meters 200 0 0 0)) ∧
    (Geo.calculate_distance 200 0 0 0).isOk = true ∧
    Geo.calculate_distance_spec 200 0 0 0 = .error "invalid coordinates" ∧
    Geo.calculate_distance_spec 200 0 0 0 ≠ Geo.calculate_distance 200 0 0 0 := by
  refine ⟨rfl, rfl, ?_, ?_⟩
  · unfold Geo.calculate_distance_spec
    rw [if_neg]
    intro hv
    have := hv.1
    rw [abs_le] at this
    linarith [this.2]
  · unfold Geo.calculate_distance_spec
    rw [if_neg]
    · intro hcontra
      exact Except.noConfusion hcontra
    · intro hv
      have := hv.1
      rw [abs_le] at this
      linarith [this.2]

/-- Claim C9 (amended): `calculate_distance` performs no coordinate
validation — for every real input, in range or not, it returns `.ok` of the
Haversine distance (Earth radius 6 371 000 m) truncated to integer meters;
on valid coordinates this agrees with the spec's function, so only the
required rejection of invalid input is missing. -/
theorem claim_C9_no_validation (lat1 lng1 lat2 lng2 : ℝ) :
    Geo.calculate_distance lat1 lng1 lat2 lng2 =
      .ok (Geo.int_trunc (Geo.haversine_meters lat1 lng1 lat2 lng2)) ∧
    (Geo.valid_coords lat1 lng1 lat2 lng2 →
      Geo.calculate_distance_spec lat1 lng1 lat2 lng2 =
        Geo.calculate_distance lat1 lng1 lat2 lng2) := by
  constructor
  · rfl
  · intro hv
    unfold Geo.calculate_distance_spec
    rw [if_pos hv]
    rfl

/-- Claim C9, witness: at the valid origin coordinates the spec function and
the code agree. -/
theorem claim_C9_witness :
    Geo.calculate_distance_spec 0 0 0 0 = Geo.calculate_distance 0 0 0 0 :=
  (claim_C9_no_validation 0 0 0 0).2 (by norm_num [Geo.valid_coords])

/-- Claim C2: the code bug. User 1 already holds an active (GROUPED) request,
yet a second `join_queue` succeeds — the duplicate check matches only
SEARCHING — leaving the requester with two active bookings at once. -/
theorem claim_C2_duplicate_join_accepted :
    ((q_st1.bookings.filter (fun b =>
        b.userId == 1 && b.status == RequestStatus.GROUPED)).length = 1) ∧
    (QueueService.join_queue q_st1 1 1 0 0 false).isOk = true ∧
    (((applyOp q_st1 (.join 1 1 0 0 false)).bookings.filter (fun b =>
        b.userId == 1 && (b.status == RequestStatus.SEARCHING ||
          b.status == RequestStatus.GROUPED))).length = 2) := by
  refine ⟨by decide, by decide, by decide⟩

/-- Claim C5, counterexample: after user 1 leaves, booking 0 is CANCELLED and
still references group 0; dispatching group 0 re-marks it GROUPED — the bulk
re-mark is not a status no-op. -/
theorem claim_C5_counterexample :
    ((q_st3.bookings.find? (fun b => b.id == 0)).map fun b => b.status) =
      some .CANCELLED ∧
    ((q_st3.bookings.find? (fun b => b.id == 0)).map fun b => b.groupId) =
      some (some 0) ∧
    (((SmartDispatchService.dispatch_group q_st3 0 .EARLY_DISPATCH 50).bookings.find?
        (fun b => b.id == 0)).map fun b => b.status) = some .GROUPED := by
  refine ⟨by decide, by decide, by decide⟩

/-- Claim C5 (amended): the dispatch bulk re-mark is a status no-op for every
request that is already GROUPED and leaves requests of other groups entirely
unchanged; but every request still referencing the dispatched group — in
particular one marked CANCELLED by `leave_queue`, which does not clear
`group_id` — is set (back) to GROUPED. -/
theorem claim_C5_dispatch_remark (st : DBState) (gid : ℕ)
    (dt : DispatchDecisionType) (p : ℚ) :
    ∀ b ∈ st.bookings,
      SmartDispatchService.dispatch_update_booking gid st.clock b ∈
        (SmartDispatchService.dispatch_group st gid dt p).bookings ∧
      (¬ b.groupId = some gid →
        SmartDispatchService.dispatch_update_booking gid st.clock b = b) ∧
      (b.groupId = some gid →
        (SmartDispatchService.dispatch_update_booking gid st.clock b).status =
          .GROUPED ∧
        (b.status = .GROUPED →
          (SmartDispatchService.dispatch_update_booking gid st.clock b).status =
            b.status)) := by
  intro b hb
  refine ⟨List.mem_map_of_mem _ hb, ?_, ?_⟩
  · intro hne
    simp [SmartDispatchService.dispatch_update_booking, hne]
  · intro hyes
    constructor
    · simp [SmartDispatchService.dispatch_update_booking, hyes]
    · intro hg
      simp [SmartDispatchService.dispatch_update_booking, hyes, hg]

/-- Claim C5, witness: the amended statement applied to the concrete
CANCELLED booking of `q_st3`. -/
theorem claim_C5_witness :
    (SmartDispatchService.dispatch_update_booking 0 q_st3.clock q_booking0).status =
      RequestStatus.GROUPED :=
  ((claim_C5_dispatch_remark q_st3 0 .EARLY_DISPATCH 50 q_booking0
    (by decide)).2.2 (by decide)).1

open QueueService in
/-- Claim C6: after any sequence of join and leave operations starting from a
seeded store, every existing group satisfies `0 ≤ current_size ≤ max_size`,
`current_size` equals the number of its member rows, and its members ordered
by join time carry exactly the contiguous seat numbers `1..current_size`
(departures renumber the remaining members). -/
theorem claim_C6_seat_invariant (users : List User) (routes : List Route)
    (ops : List QueueOp) :
    ∀ g ∈ (runOps (initState users routes) ops).groups,
      0 ≤ g.currentSize ∧ g.currentSize ≤ g.maxSize ∧
      g.currentSize =
        ((membersOf (runOps (initState users routes) ops).members g.id).length : ℤ) ∧
      (List.insertionSort byJoinedAt
          (membersOf (runOps (initState users routes) ops).members g.id)).map
        (fun m => m.seatNumber) =
        seatSeq (membersOf (runOps (initState users routes) ops).members g.id).length := by
  intro g hg
  have hInv := inv_runOps (initState users routes) ops (inv_init users routes)
  have hpair : (membersOf (runOps (initState users routes) ops).members g.id).Pairwise
      (fun a b => a.joinedAt < b.joinedAt) := by
    unfold membersOf
    exact hInv.members_sorted.filter _
  have hsorted : List.Sorted byJoinedAt
      (membersOf (runOps (initState users routes) ops).members g.id) :=
    hpair.imp (fun h => le_of_lt h)
  refine ⟨?_, hInv.size_le g hg, hInv.size_eq g hg, ?_⟩
  · rw [hInv.size_eq g hg]
    exact_mod_cast Nat.zero_le _
  · rw [hsorted.insertionSort_eq]
    exact hInv.seats_eq g hg


open QueueService in
/-- Claim C6, witness: the invariant instantiated on the join/join/leave
scenario. -/
theorem claim_C6_witness :
    0 ≤ q_group0.currentSize ∧ q_group0.currentSize ≤ q_group0.maxSize ∧
    q_group0.currentSize = ((membersOf q_st3.members q_group0.id).length : ℤ) ∧
    (List.insertionSort byJoinedAt (membersOf q_st3.members q_group0.id)).map
      (fun m => m.seatNumber) =
      seatSeq (membersOf q_st3.members q_group0.id).length :=
  claim_C6_seat_invariant q_users q_routes
    [.join 1 1 0 0 false, .join 2 1 0 0 false, .leave 1] q_group0 (by decide)

open QueueService in
/-- Claim C7: a successful join places the requester in the candidate — a
gender-compatible FORMING group on the route with `current_size < max_size`
that `can_accept_user` the requester — of largest `current_size`; when no such
candidate exists a fresh empty group is created with
`women_only = womenOnlyPref OR requester.isFemale` and the requester becomes
its first (and only) member with seat 1. -/
theorem claim_C7_best_fit (st : DBState) (uid rid : ℕ) (lat lng : ℚ) (w : Bool)
    (u : User) (route : Route)
    (hu : st.users.find? (fun x => x.id == uid) = some u)
    (hr : st.routes.find? (fun r => r.id == rid) = some route)
    (hact : route.isActive = true)
    (hdup : st.bookings.any (fun b =>
      b.userId == uid && b.status == RequestStatus.SEARCHING) = false)
    (hfresh : ∀ m ∈ st.members, m.groupId < st.nextGroupId) :
    ∃ st2 res, join_queue st uid rid lat lng w = .ok (st2, res) ∧
      ((∃ gc ∈ candidate_groups st.groups u rid w, gc.can_accept_user u = true) →
        ∃ gc ∈ candidate_groups st.groups u rid w, gc.can_accept_user u = true ∧
          res.groupId = gc.id ∧ res.seatNumber = gc.currentSize + 1 ∧
          ∀ g2 ∈ candidate_groups st.groups u rid w, g2.can_accept_user u = true →
            g2.currentSize ≤ gc.currentSize) ∧
      ((∀ g2 ∈ candidate_groups st.groups u rid w, ¬ g2.can_accept_user u = true) →
        res.groupId = st.nextGroupId ∧ res.seatNumber = 1 ∧ res.currentSize = 1 ∧
        res.womenOnly = (w || u.gender == "FEMALE") ∧
        (membersOf st2.members st.nextGroupId).map (fun m => m.userId) = [uid]) := by
  have huid : u.id = uid := by simpa using List.find?_some hu
  set st1 : DBState :=
    { st with
        bookings := st.bookings ++
          [{ id := st.nextBookingId
             userId := uid
             routeId := rid
             status := .SEARCHING
             requestLat := lat
             requestLng := lng
             womenOnlyPreference := w
             groupId := none
             groupedAt := none }]
        nextBookingId := st.nextBookingId + 1 } with hst1
  have hjoin : join_queue st uid rid lat lng w =
      .ok (add_user_to_group (find_or_create_group st1 u rid w).1 u
        (find_or_create_group st1 u rid w).2 st.nextBookingId lat lng) := by
    unfold join_queue
    rw [hu, hr]
    simp only [hact, hdup, Bool.not_true, Bool.false_eq_true, if_false]
  refine ⟨(add_user_to_group (find_or_create_group st1 u rid w).1 u
            (find_or_create_group st1 u rid w).2 st.nextBookingId lat lng).1,
          (add_user_to_group (find_or_create_group st1 u rid w).1 u
            (find_or_create_group st1 u rid w).2 st.nextBookingId lat lng).2,
          by rw [hjoin], ?_, ?_⟩
  · intro hex
    cases hfind : (List.insertionSort bySizeDesc
        (candidate_groups st1.groups u rid w)).find?
        (fun g => g.can_accept_user u) with
    | some gc =>
      have hfc : find_or_create_group st1 u rid w = (st1, gc) := by
        unfold find_or_create_group
        rw [hfind]
      have hmem_sorted : gc ∈ List.insertionSort bySizeDesc
          (candidate_groups st1.groups u rid w) := List.mem_of_find?_eq_some hfind
      have hmem_cand : gc ∈ candidate_groups st1.groups u rid w :=
        (List.perm_insertionSort bySizeDesc _).subset hmem_sorted
      have hacc : gc.can_accept_user u = true := by
        simpa using List.find?_some hfind
      refine ⟨gc, hmem_cand, hacc, by rw [hfc]; rfl, by rw [hfc]; rfl, ?_⟩
      intro g2 hg2 hacc2
      exact find?_sorted_size_max (List.sorted_insertionSort _ _) hfind g2
        ((List.perm_insertionSort bySizeDesc _).symm.subset hg2) hacc2
    | none =>
      exfalso
      rcases hex with ⟨gc, hgc, hacc⟩
      exact absurd hacc (List.find?_eq_none.mp hfind gc
        ((List.perm_insertionSort bySizeDesc _).symm.subset hgc))
  · intro hnone
    cases hfind : (List.insertionSort bySizeDesc
        (candidate_groups st1.groups u rid w)).find?
        (fun g => g.can_accept_user u) with
    | some gc =>
      exfalso
      have hmem_cand : gc ∈ candidate_groups st1.groups u rid w :=
        (List.perm_insertionSort bySizeDesc _).subset
          (List.mem_of_find?_eq_some hfind)
      have hacc : gc.can_accept_user u = true := by
        simpa using List.find?_some hfind
      exact absurd hacc (hnone gc hmem_cand)
    | none =>
      have hfc : find_or_create_group st1 u rid w =
          ({ st1 with
              groups := st1.groups ++
                [{ id := st1.nextGroupId
                   routeId := rid
                   groupStatus := .FORMING
                   currentSize := 0
                   maxSize := 4
                   womenOnly := w || u.gender == "FEMALE"
                   firstUserJoinedAt := none
                   dispatchDecisionType := none
                   dispatchProbabilityScore := none }]
              nextGroupId := st1.nextGroupId + 1 },
            { id := st1.nextGroupId
              routeId := rid
              groupStatus := .FORMING
              currentSize := 0
              maxSize := 4
              womenOnly := w || u.gender == "FEMALE"
              firstUserJoinedAt := none
              dispatchDecisionType := none
              dispatchProbabilityScore := none }) := by
        unfold find_or_create_group
        rw [hfind]
      refine ⟨by rw [hfc]; rfl, by rw [hfc]; simp [add_user_to_group],
        by rw [hfc]; simp [add_user_to_group], by rw [hfc]; rfl, ?_⟩
      rw [hfc]
      have hnil : membersOf st1.members st.nextGroupId = [] := by
        unfold membersOf
        rw [List.filter_eq_nil_iff]
        intro m hm
        have := hfresh m hm
        simp only [beq_iff_eq]
        omega
      have hsame := membersOf_append_same st1.members
        { id := st1.nextMemberId
          groupId := st1.nextGroupId
          userId := u.id
          joinedAt := st1.clock
          userLat := lat
          userLng := lng
          seatNumber := 0 + 1 } st.nextGroupId rfl
      show (membersOf (st1.members ++
        [{ id := st1.nextMemberId
           groupId := st1.nextGroupId
           userId := u.id
           joinedAt := st1.clock
           userLat := lat
           userLng := lng
           seatNumber := 0 + 1 }]) st.nextGroupId).map (fun m => m.userId) = [uid]
      rw [hsame, hnil]
      simp [huid]


open QueueService in
/-- Claim C7, witness: user 2 joining after user 1 lands in user 1's group
(the largest — and only — compatible candidate). -/
theorem claim_C7_witness :
    ∃ st2 res, join_queue q_st1 2 1 0 0 false = .ok (st2, res) ∧
      ((∃ gc ∈ candidate_groups q_st1.groups q_user2 1 false,
          gc.can_accept_user q_user2 = true) →
        ∃ gc ∈ candidate_groups q_st1.groups q_user2 1 false,
          gc.can_accept_user q_user2 = true ∧ res.groupId = gc.id ∧
          res.seatNumber = gc.currentSize + 1 ∧
          ∀ g2 ∈ candidate_groups q_st1.groups q_user2 1 false,
            g2.can_accept_user q_user2 = true → g2.currentSize ≤ gc.currentSize) ∧
      ((∀ g2 ∈ candidate_groups q_st1.groups q_user2 1 false,
          ¬ g2.can_accept_user q_user2 = true) →
        res.groupId = q_st1.nextGroupId ∧ res.seatNumber = 1 ∧
        res.currentSize = 1 ∧
        res.womenOnly = (false || q_user2.gender == "FEMALE") ∧
        (membersOf st2.members q_st1.nextGroupId).map (fun m => m.userId) = [2]) :=
  claim_C7_best_fit q_st1 2 1 0 0 false q_user2 q_route1 (by decide) (by decide)
    (by decide) (by decide) (by decide)

end RickQueue
